import Mathlib

/-!
# Vigilo — verification of the baseline store and event pipeline

Shallow embedding of the Vigilo file-integrity-monitoring core
(`logger.py`, `FileWatcher.py`, `file_monitoring.py`, `main.py`).

The persisted baseline store (`file_info.json`) is modelled as the raw
`String` content of the file; lines are obtained with `splitOn "\n"`,
mirroring Python's line iteration followed by `str.strip()`.  JSON values
are modelled by the inductive `JVal`; `jsonParse` models `json.loads`
restricted to integer numerals (the store only ever holds integers and
strings; float literals, `\u` escapes and non-ASCII text are out of
scope of the model), and `dumps` models `json.dumps` with its default
separators.  Operations that can raise an uncaught Python exception
(e.g. `AttributeError` from `data.get("file", {}).get("path")` when a
parsed line is not an object) return in the `Py` monad, where
`Except.error ()` marks an exception propagating out of the function.
-/

namespace Vigilo

/-- The JSON value domain handled by `json.loads`/`json.dumps` in the
source, with numbers restricted to integers (all numeric fields the
store produces — `size` — are integers).  `jnull` also stands for the
Python `None` returned by `dict.get` on a missing key, since `json`
maps `null` to `None`. -/
inductive JVal where
  | jnull : JVal
  | jbool : Bool → JVal
  | jnum : Int → JVal
  | jstr : String → JVal
  | jarr : List JVal → JVal
  | jobj : List (String × JVal) → JVal

instance : Inhabited JVal := ⟨.jnull⟩

/-- Python-level computations that can raise an uncaught exception:
`Except.error ()` models an exception escaping the modelled function. -/
abbrev Py (α : Type) : Type := Except Unit α

/-- Python whitespace characters removed by `str.strip()`. -/
def isPyWs (c : Char) : Bool :=
  c == ' ' || c == '\t' || c == '\n' || c == '\r' || c == '\x0b' || c == '\x0c'

/-- Model of Python `str.strip()`. -/
def pyStrip (s : String) : String :=
  ((s.toList.dropWhile isPyWs).reverse.dropWhile isPyWs).reverse.asString

/-- Split a character stream at newline characters. -/
def splitNl (cur : List Char) : List Char → List String
  | [] => [cur.reverse.asString]
  | c :: rest =>
    if c = '\n' then cur.reverse.asString :: splitNl [] rest
    else splitNl (c :: cur) rest

/-- The lines of a file's content, as delivered by Python's line
iteration (before stripping). -/
def splitLines (content : String) : List String :=
  splitNl [] content.toList

/-- Content written by the rewrite loops: each kept line followed by a
newline (`f.write(line + "\n")`). -/
def joinLines : List String → String
  | [] => ""
  | l :: ls => l ++ "\n" ++ joinLines ls

/-- Insert into an insertion-ordered dict: an existing key keeps its
position and receives the new value, a new key is appended
(CPython `dict` semantics, also used by `json.loads` for duplicate
keys where the last value wins). -/
def insertReplace (k : String) (v : JVal) : List (String × JVal) → List (String × JVal)
  | [] => [(k, v)]
  | (k', v') :: rest =>
    if k' = k then (k, v) :: rest else (k', v') :: insertReplace k v rest

/-- First value stored under a key of an insertion-ordered dict. -/
def alookup (k : String) : List (String × JVal) → Option JVal
  | [] => none
  | (k', v) :: rest => if k' = k then some v else alookup k rest

-- ===========================================================================
-- json.loads (restricted to the integer fragment)
-- ===========================================================================

/-- Skip JSON inter-token whitespace. -/
def skipWs : List Char → List Char
  | c :: rest => if c = ' ' ∨ c = '\t' ∨ c = '\n' ∨ c = '\r' then skipWs rest else c :: rest
  | [] => []

/-- Decode a JSON string body up to the closing quote, handling the
single-character escapes (`\u` escapes are outside the model). -/
def pStr : List Char → Option (String × List Char)
  | [] => none
  | c :: rest =>
    if c = '"' then some ("", rest)
    else if c = '\\' then
      match rest with
      | [] => none
      | e :: rest' =>
        let dec : Option Char :=
          if e = '"' then some '"'
          else if e = '\\' then some '\\'
          else if e = '/' then some '/'
          else if e = 'n' then some '\n'
          else if e = 't' then some '\t'
          else if e = 'r' then some '\r'
          else if e = 'b' then some '\x08'
          else if e = 'f' then some '\x0c'
          else none
        match dec with
        | none => none
        | some d =>
          match pStr rest' with
          | some (s, tail) => some (⟨d :: s.toList⟩, tail)
          | none => none
    else
      match pStr rest with
      | some (s, tail) => some (⟨c :: s.toList⟩, tail)
      | none => none

/-- Value of a digit string. -/
def digitsVal (cs : List Char) : Nat :=
  cs.foldl (fun acc c => acc * 10 + (c.toNat - '0'.toNat)) 0

/-- Decode a run of decimal digits. -/
def pDigits (cs : List Char) : Option (Nat × List Char) :=
  let digs := cs.takeWhile Char.isDigit
  if digs.isEmpty then none
  else some (digitsVal digs, cs.dropWhile Char.isDigit)

mutual

/-- Recursive-descent JSON value decoder; the fuel bounds nesting and
list length, and `jsonParse` supplies more fuel than the input length. -/
def pVal : Nat → List Char → Option (JVal × List Char)
  | 0, _ => none
  | fuel + 1, cs =>
    match skipWs cs with
    | 'n' :: 'u' :: 'l' :: 'l' :: rest => some (.jnull, rest)
    | 't' :: 'r' :: 'u' :: 'e' :: rest => some (.jbool true, rest)
    | 'f' :: 'a' :: 'l' :: 's' :: 'e' :: rest => some (.jbool false, rest)
    | '"' :: rest =>
      match pStr rest with
      | some (s, tail) => some (.jstr s, tail)
      | none => none
    | '[' :: rest =>
      (match skipWs rest with
       | ']' :: tail => some (.jarr [], tail)
       | cs' => match pArrItems fuel cs' with
         | some (xs, tail) => some (.jarr xs, tail)
         | none => none)
    | '\x7b' :: rest =>
      (match skipWs rest with
       | '\x7d' :: tail => some (.jobj [], tail)
       | cs' => match pObjItems fuel cs' with
         | some (fs, tail) => some (.jobj (fs.foldl (fun d kv => insertReplace kv.1 kv.2 d) []), tail)
         | none => none)
    | '-' :: rest =>
      (match pDigits rest with
       | some (n, tail) => some (.jnum (-(n : Int)), tail)
       | none => none)
    | c :: rest =>
      if c.isDigit then
        match pDigits (c :: rest) with
        | some (n, tail) => some (.jnum (n : Int), tail)
        | none => none
      else none
    | [] => none

/-- Comma-separated array elements, after the opening bracket. -/
def pArrItems : Nat → List Char → Option (List JVal × List Char)
  | 0, _ => none
  | fuel + 1, cs =>
    match pVal fuel cs with
    | none => none
    | some (v, rest) =>
      match skipWs rest with
      | ',' :: rest' =>
        (match pArrItems fuel rest' with
         | some (xs, tail) => some (v :: xs, tail)
         | none => none)
      | ']' :: tail => some ([v], tail)
      | _ => none

/-- Comma-separated object members in textual order, after the opening
brace; the caller folds them into an insertion-ordered dict with
`insertReplace` (last value wins, first position kept), as CPython's
`json.loads` does. -/
def pObjItems : Nat → List Char → Option (List (String × JVal) × List Char)
  | 0, _ => none
  | fuel + 1, cs =>
    match skipWs cs with
    | '"' :: rest =>
      (match pStr rest with
       | none => none
       | some (k, rest') =>
         match skipWs rest' with
         | ':' :: rest'' =>
           (match pVal fuel rest'' with
            | none => none
            | some (v, rest''') =>
              match skipWs rest''' with
              | ',' :: rest4 =>
                (match pObjItems fuel rest4 with
                 | some (fs, tail) => some ((k, v) :: fs, tail)
                 | none => none)
              | '\x7d' :: tail => some ([(k, v)], tail)
              | _ => none)
         | _ => none)
    | _ => none

end

/-- Model of `json.loads`: the whole input must be consumed. -/
def jsonParse (s : String) : Option JVal :=
  match pVal (s.length + 1) s.toList with
  | some (v, rest) => if (skipWs rest).isEmpty then some v else none
  | none => none

-- ===========================================================================
-- json.dumps
-- ===========================================================================

/-- Hexadecimal digit. -/
def hexDigit (n : Nat) : Char :=
  if n < 10 then Char.ofNat ('0'.toNat + n) else Char.ofNat ('a'.toNat + n - 10)

/-- `\uXXXX` escape for a 16-bit unit. -/
def uEscape (n : Nat) : List Char :=
  ['\\', 'u', hexDigit (n / 4096 % 16), hexDigit (n / 256 % 16),
   hexDigit (n / 16 % 16), hexDigit (n % 16)]

/-- Escape one character the way `json.dumps` (with `ensure_ascii`) does. -/
def escChar (c : Char) : List Char :=
  if c = '"' then ['\\', '"']
  else if c = '\\' then ['\\', '\\']
  else if c = '\n' then ['\\', 'n']
  else if c = '\t' then ['\\', 't']
  else if c = '\r' then ['\\', 'r']
  else if c = '\x08' then ['\\', 'b']
  else if c = '\x0c' then ['\\', 'f']
  else if c.toNat < 32 then uEscape c.toNat
  else if c.toNat < 127 then [c]
  else if c.toNat < 65536 then uEscape c.toNat
  else
    uEscape (55296 + (c.toNat - 65536) / 1024) ++ uEscape (56320 + (c.toNat - 65536) % 1024)

/-- A JSON string literal as emitted by `json.dumps`. -/
def dumpStr (s : String) : String :=
  "\"" ++ (s.toList.foldr (fun c acc => escChar c ++ acc) []).asString ++ "\""

mutual

/-- `json.dumps(v)` with the default separators `", "` and `": "`. -/
def dumps : JVal → String
  | .jnull => "null"
  | .jbool true => "true"
  | .jbool false => "false"
  | .jnum n => toString n
  | .jstr s => dumpStr s
  | .jarr xs => "[" ++ dumpsArr xs ++ "]"
  | .jobj fs => "\x7b" ++ dumpsObj fs ++ "\x7d"

def dumpsArr : List JVal → String
  | [] => ""
  | [x] => dumps x
  | x :: y :: rest => dumps x ++ ", " ++ dumpsArr (y :: rest)

def dumpsObj : List (String × JVal) → String
  | [] => ""
  | [(k, v)] => dumpStr k ++ ": " ++ dumps v
  | (k, v) :: f :: rest => dumpStr k ++ ": " ++ dumps v ++ ", " ++ dumpsObj (f :: rest)

end

/-- `level * 4` spaces, the indentation unit of `json.dump(..., indent=4)`. -/
def ind (level : Nat) : String :=
  String.mk (List.replicate (level * 4) ' ')

mutual

/-- `json.dumps(v, indent=4)` (item separator `","`, key separator `": "`). -/
def dumpsI : Nat → JVal → String
  | _, .jnull => "null"
  | _, .jbool true => "true"
  | _, .jbool false => "false"
  | _, .jnum n => toString n
  | _, .jstr s => dumpStr s
  | _, .jarr [] => "[]"
  | level, .jarr (x :: xs) =>
    "[\n" ++ dumpsIArr level (x :: xs) ++ "\n" ++ ind level ++ "]"
  | _, .jobj [] => "\x7b\x7d"
  | level, .jobj (f :: fs) =>
    "\x7b\n" ++ dumpsIObj level (f :: fs) ++ "\n" ++ ind level ++ "\x7d"

def dumpsIArr : Nat → List JVal → String
  | _, [] => ""
  | level, [x] => ind (level + 1) ++ dumpsI (level + 1) x
  | level, x :: y :: rest =>
    ind (level + 1) ++ dumpsI (level + 1) x ++ ",\n" ++ dumpsIArr level (y :: rest)

def dumpsIObj : Nat → List (String × JVal) → String
  | _, [] => ""
  | level, [(k, v)] => ind (level + 1) ++ dumpStr k ++ ": " ++ dumpsI (level + 1) v
  | level, (k, v) :: f :: rest =>
    ind (level + 1) ++ dumpStr k ++ ": " ++ dumpsI (level + 1) v ++ ",\n" ++
      dumpsIObj level (f :: rest)

end

-- ===========================================================================
-- Python value semantics: ==, truthiness, dict access
-- ===========================================================================

/-- Keys of the second dict all occur in the first. -/
def keysSub (gs fs : List (String × JVal)) : Bool :=
  gs.all (fun kv => (alookup kv.1 fs).isSome)

mutual

/-- Python `==` on JSON values (note `True == 1` and `False == 0`;
dict comparison is key-set plus per-key value equality). -/
def pyEq : JVal → JVal → Bool
  | .jnull, .jnull => true
  | .jbool a, .jbool b => a == b
  | .jbool a, .jnum n => n == (if a then 1 else 0)
  | .jnum n, .jbool a => n == (if a then 1 else 0)
  | .jnum a, .jnum b => a == b
  | .jstr a, .jstr b => a == b
  | .jarr xs, .jarr ys => pyEqArr xs ys
  | .jobj fs, .jobj gs => pyEqObjVals fs gs && keysSub gs fs
  | _, _ => false

/-- Python `==` on lists: same length, pairwise equal. -/
def pyEqArr : List JVal → List JVal → Bool
  | [], [] => true
  | x :: xs, y :: ys => pyEq x y && pyEqArr xs ys
  | _, _ => false

/-- Every key of the first dict is in the second with a `==` value. -/
def pyEqObjVals : List (String × JVal) → List (String × JVal) → Bool
  | [], _ => true
  | (k, v) :: fs, gs =>
    (match alookup k gs with
     | some w => pyEq v w
     | none => false) && pyEqObjVals fs gs

end

/-- Python truthiness of a JSON value. -/
def pyTruthy : JVal → Bool
  | .jnull => false
  | .jbool b => b
  | .jnum n => n != 0
  | .jstr s => s ≠ ""
  | .jarr xs => !xs.isEmpty
  | .jobj fs => !fs.isEmpty

/-- Whether a value can be a `set` element or `dict` key (hashable). -/
def pyHashable : JVal → Bool
  | .jarr _ => false
  | .jobj _ => false
  | _ => true

/-- `v.get(key, default)`: defined on dicts, `AttributeError` on
anything else (the uncaught-exception path of
`data.get("file", \x7b\x7d).get("path")` on a non-object line). -/
def pyGet (v : JVal) (key : String) (default : JVal) : Py JVal :=
  match v with
  | .jobj fs => pure ((alookup key fs).getD default)
  | _ => .error ()

/-- `d[key] = v` on a dict, `TypeError` on anything else. -/
def pySetKey (v : JVal) (key : String) (newVal : JVal) : Py JVal :=
  match v with
  | .jobj fs => pure (.jobj (insertReplace key newVal fs))
  | _ => .error ()

/-- Insert into a dict keyed by arbitrary (hashable) values, comparing
keys with Python `==`. -/
def insertReplaceJ (k v : JVal) : List (JVal × JVal) → List (JVal × JVal)
  | [] => [(k, v)]
  | (k', v') :: rest =>
    if pyEq k' k then (k, v) :: rest else (k', v') :: insertReplaceJ k v rest

/-- Dict lookup with Python `==` on keys. -/
def jlookup (k : JVal) : List (JVal × JVal) → Option JVal
  | [] => none
  | (k', v) :: rest => if pyEq k' k then some v else jlookup k rest

/-- `dict.pop(k, None)`-style removal. -/
def jremoveKey (k : JVal) (d : List (JVal × JVal)) : List (JVal × JVal) :=
  d.filter (fun kv => !pyEq kv.1 k)

/-- Membership of a value in a Python set modelled as a duplicate-free
list. -/
def memPyEq (x : JVal) : List JVal → Bool
  | [] => false
  | y :: ys => pyEq y x || memPyEq x ys

/-- `set.add`-style insertion (no-op when an equal element exists). -/
def setAdd (acc : List JVal) (x : JVal) : List JVal :=
  if memPyEq x acc then acc else acc ++ [x]

/-- `set(iterable)`: iterating a list takes its elements (`TypeError`
on an unhashable element), a string its characters, a dict its keys;
numbers and the like are not iterable (`TypeError`).  CPython's set
iteration order is hash-dependent and implementation-defined; the
model deterministically uses first-insertion order. -/
def pySetFrom (v : JVal) : Py (List JVal) :=
  match v with
  | .jarr xs =>
    if xs.all pyHashable then pure (xs.foldl setAdd []) else .error ()
  | .jstr s => pure ((s.toList.map (fun c => JVal.jstr (String.mk [c]))).foldl setAdd [])
  | .jobj fs => pure ((fs.map (fun kv => JVal.jstr kv.1)).foldl setAdd [])
  | _ => .error ()

/-- `set.add(x)`: `TypeError` on an unhashable `x`. -/
def pySetAddE (acc : List JVal) (x : JVal) : Py (List JVal) :=
  if pyHashable x then pure (setAdd acc x) else .error ()

/-- `set.discard(x)`: `TypeError` on an unhashable `x`. -/
def pySetDiscardE (acc : List JVal) (x : JVal) : Py (List JVal) :=
  if pyHashable x then pure (acc.filter (fun y => !pyEq y x)) else .error ()

-- ===========================================================================
-- The atomic-rewrite discipline (temp file, chmod, rename / cleanup)
-- ===========================================================================

/-- The observable file-system operations a store rewrite performs on
the store file's temporary sibling.  `fsyncTemp` is in the vocabulary
so that "an fsync-equivalent is performed" is expressible; the source
contains no `flush`/`os.fsync` call, so no model emits it. -/
inductive FsOp where
  | writeTemp : String → FsOp
  | fsyncTemp : FsOp
  | chmodTemp : FsOp
  | renameTempOver : FsOp
  | removeTemp : FsOp
deriving DecidableEq, Repr

/-- Trace of the `try: open/write; chmod; replace except: remove` block
shared by every store rewrite: on success the temp content is written,
`chmod`ed and renamed over the original; on an I/O failure the temp
file is removed again. -/
def atomicTrace (content : String) (writeOk : Bool) : List FsOp :=
  if writeOk then [.writeTemp content, .chmodTemp, .renameTempOver]
  else [.writeTemp content, .removeTemp]

-- ===========================================================================
-- logger.remove_monitored_file_info
-- ===========================================================================

/-- The read/filter loop of `remove_monitored_file_info`: blank lines
are skipped, unparseable lines kept as their stripped text, records
whose `file.path` equals the target dropped (setting the `removed`
flag), all other records re-serialized with `json.dumps`. -/
def removeLoop (target : String) : List String → Py (List String × Bool)
  | [] => pure ([], false)
  | piece :: rest => do
    let s := pyStrip piece
    if s = "" then removeLoop target rest
    else
      match jsonParse s with
      | none => do
        let (ls, r) ← removeLoop target rest
        pure (s :: ls, r)
      | some d => do
        let fileObj ← pyGet d "file" (.jobj [])
        let pathVal ← pyGet fileObj "path" .jnull
        if pyEq pathVal (.jstr target) then do
          let (ls, _) ← removeLoop target rest
          pure (ls, true)
        else do
          let (ls, r) ← removeLoop target rest
          pure (dumps d :: ls, r)

/-- Outcome of `remove_monitored_file_info`: the Python return value
(`Except.error ()` for an uncaught exception), the store file's final
content, and the temp-file operations performed. -/
structure RemoveResult where
  res : Py Bool
  store : String
  trace : List FsOp
deriving Repr

/-- `logger.remove_monitored_file_info` over an existing, readable
store file with content `store`; `writeOk` is false when an
`OSError`/`IOError` occurs while writing the temporary file, in which
case the temp file is removed, the original is untouched and `False`
is returned. -/
def remove_monitored_file_info (store target : String) (writeOk : Bool) : RemoveResult :=
  match removeLoop target (splitLines store) with
  | .error e => ⟨.error e, store, []⟩
  | .ok (lines, removed) =>
    let c := joinLines lines
    if writeOk then ⟨.ok removed, c, atomicTrace c true⟩
    else ⟨.ok false, store, atomicTrace c false⟩

-- ===========================================================================
-- logger.regenerate_event_index
-- ===========================================================================

/-- The scan of `regenerate_event_index`: for each parseable line with
a truthy `file.path`, record `watch_events` and `alert_mode` under that
path (later lines for the same path overwrite, keeping the first
position, as a CPython dict does); an unhashable path key raises. -/
def regenLoop (acc : List (JVal × JVal)) : List String → Py (List (JVal × JVal))
  | [] => pure acc
  | piece :: rest => do
    let s := pyStrip piece
    if s = "" then regenLoop acc rest
    else
      match jsonParse s with
      | none => regenLoop acc rest
      | some d => do
        let fileObj ← pyGet d "file" (.jobj [])
        let pathVal ← pyGet fileObj "path" .jnull
        let monitoring ← pyGet d "monitoring" (.jobj [])
        if pyTruthy pathVal then do
          let we ← pyGet monitoring "watch_events" (.jarr [])
          let am ← pyGet monitoring "alert_mode" .jnull
          if pyHashable pathVal then
            regenLoop (insertReplaceJ pathVal (.jobj [("watch_events", we), ("alert_mode", am)]) acc) rest
          else .error ()
        else regenLoop acc rest

/-- `json.dump` coercion of a scalar dict key to a string. -/
def keyStr : JVal → String
  | .jstr s => s
  | .jnum n => toString n
  | .jbool true => "true"
  | .jbool false => "false"
  | _ => "null"

/-- `logger.regenerate_event_index` on a readable store: returns the
new index-file content, or raises (`Except.error`) on an uncaught
exception during the scan or — after removing its temp file — on an
I/O failure while writing (`writeOk = false`). -/
def regenerate_event_index (store : String) (writeOk : Bool) : Py String := do
  let m ← regenLoop [] (splitLines store)
  if writeOk then
    pure (dumpsI 0 (.jobj (m.map (fun kv => (keyStr kv.1, kv.2)))))
  else .error ()

/-- The index file's content after one run of
`regenerate_event_index` against store content `store`, starting from
index content `idx` (unchanged when the run raises). -/
def regenStep (store : String) (writeOk : Bool) (idx : String) : String :=
  match regenerate_event_index store writeOk with
  | .ok out => out
  | .error _ => idx

-- ===========================================================================
-- logger.set_conf
-- ===========================================================================

/-- The `change_type` branch ladder of `set_conf`, applied to the
matching record's `monitoring` block; returns the new block and
whether the `updated` flag was set. -/
def setConfStep (cType : String) (newEvents newAlert monitoring : JVal) : Py (JVal × Bool) :=
  if cType = "SET_EVENTS" ∧ newEvents matches .jarr _ then do
    let m ← pySetKey monitoring "watch_events" newEvents
    pure (m, true)
  else if cType = "ADD_EVENT" ∧ pyTruthy newEvents then do
    let weRaw ← pyGet monitoring "watch_events" (.jarr [])
    let evs ← pySetFrom weRaw
    let evs' ← pySetAddE evs newEvents
    let m ← pySetKey monitoring "watch_events" (.jarr evs')
    pure (m, true)
  else if cType = "REMOVE_EVENT" ∧ pyTruthy newEvents then do
    let weRaw ← pyGet monitoring "watch_events" (.jarr [])
    let evs ← pySetFrom weRaw
    let evs' ← pySetDiscardE evs newEvents
    let m ← pySetKey monitoring "watch_events" (.jarr evs')
    pure (m, true)
  else if cType = "SET_ALERT" ∧ pyTruthy newAlert then do
    let m ← pySetKey monitoring "alert_mode" newAlert
    pure (m, true)
  else if cType = "SET_ALL" then do
    let m₁ ←
      if newEvents matches .jarr _ then pySetKey monitoring "watch_events" newEvents
      else pure monitoring
    let m₂ ←
      if pyTruthy newAlert then pySetKey m₁ "alert_mode" newAlert
      else pure m₁
    pure (m₂, true)
  else pure (monitoring, false)

/-- The per-line update of `set_conf`: on the record whose `file.path`
equals the target, apply the change kind to its `monitoring` block and
set the `updated` flag; every other parseable line is re-serialized and
unparseable lines are kept as their stripped text. -/
def setConfLoop (target cType : String) (newEvents newAlert : JVal) :
    List String → Py (List String × Bool)
  | [] => pure ([], false)
  | piece :: rest => do
    let s := pyStrip piece
    if s = "" then setConfLoop target cType newEvents newAlert rest
    else
      match jsonParse s with
      | none => do
        let (ls, u) ← setConfLoop target cType newEvents newAlert rest
        pure (s :: ls, u)
      | some d => do
        let fileObj ← pyGet d "file" (.jobj [])
        let pathVal ← pyGet fileObj "path" .jnull
        if pyEq pathVal (.jstr target) then do
          let monitoring ← pyGet d "monitoring" (.jobj [])
          let (monitoring', upd) ← setConfStep cType newEvents newAlert monitoring
          let d' ← pySetKey d "monitoring" monitoring'
          let (ls, u) ← setConfLoop target cType newEvents newAlert rest
          pure (dumps d' :: ls, u || upd)
        else do
          let (ls, u) ← setConfLoop target cType newEvents newAlert rest
          pure (dumps d :: ls, u)

/-- Outcome of `set_conf`: Python return value, store-file content,
index-file content, and the temp-file operations on the store file. -/
structure SetConfResult where
  res : Py Bool
  store : String
  index : String
  trace : List FsOp
deriving Repr

/-- `logger.set_conf` over an existing readable store (content
`store`) and index (content `idx`).  `writeOk` injects an I/O failure
while writing the store's temp file; `regenWriteOk` injects one inside
`regenerate_event_index` (whose exception `set_conf` catches, turning
an already-performed store write into a `False` return). -/
def set_conf (store : String) (target cType : String) (newEvents newAlert : JVal)
    (idx : String) (writeOk regenWriteOk : Bool) : SetConfResult :=
  match setConfLoop target cType newEvents newAlert (splitLines store) with
  | .error e => ⟨.error e, store, idx, []⟩
  | .ok (lines, updated) =>
    if !updated then ⟨.ok false, store, idx, []⟩
    else
      let c := joinLines lines
      if !writeOk then ⟨.ok false, store, idx, atomicTrace c false⟩
      else
        match regenerate_event_index c regenWriteOk with
        | .ok out => ⟨.ok true, c, out, atomicTrace c true⟩
        | .error _ => ⟨.ok false, c, idx, atomicTrace c true⟩

-- ===========================================================================
-- logger.update_files_state
-- ===========================================================================

/-- The per-line refresh of `update_files_state`.  `fsExists` models
`os.path.exists`; `loadInfo` models `MonitoredFile.load_file_info`
(`none` = the caught `FileNotFoundError`/`PermissionError`/`OSError`). -/
def updateLoop (fsExists : String → Bool) (loadInfo : String → Option JVal)
    (ev src : String) (dest : Option String) : List String → Py (List String)
  | [] => pure []
  | piece :: rest => do
    let s := pyStrip piece
    if s = "" then updateLoop fsExists loadInfo ev src dest rest
    else
      match jsonParse s with
      | none => do
        let ls ← updateLoop fsExists loadInfo ev src dest rest
        pure (s :: ls)
      | some d => do
        let fileObj ← pyGet d "file" (.jobj [])
        let pathVal ← pyGet fileObj "path" .jnull
        if ev = "delete" ∧ pyEq pathVal (.jstr src) then
          updateLoop fsExists loadInfo ev src dest rest
        else if ev = "move" ∧ pyEq pathVal (.jstr src) ∧ dest.isSome then
          match dest with
          | none => updateLoop fsExists loadInfo ev src dest rest
          | some dst =>
            if fsExists dst then
              match loadInfo dst with
              | some nd => do
                let mon ← pyGet d "monitoring" (.jobj [])
                let nd' ← pySetKey nd "monitoring" mon
                let ls ← updateLoop fsExists loadInfo ev src dest rest
                pure (dumps nd' :: ls)
              | none => updateLoop fsExists loadInfo ev src dest rest
            else updateLoop fsExists loadInfo ev src dest rest
        else if (ev = "modify" ∨ ev = "add") ∧ pyEq pathVal (.jstr src) then
          if fsExists src then
            match loadInfo src with
            | some nd => do
              let mon ← pyGet d "monitoring" (.jobj [])
              let nd' ← pySetKey nd "monitoring" mon
              let ls ← updateLoop fsExists loadInfo ev src dest rest
              pure (dumps nd' :: ls)
            | none => do
              let ls ← updateLoop fsExists loadInfo ev src dest rest
              pure (dumps d :: ls)
          else do
            let ls ← updateLoop fsExists loadInfo ev src dest rest
            pure (dumps d :: ls)
        else do
          let ls ← updateLoop fsExists loadInfo ev src dest rest
          pure (dumps d :: ls)

/-- The pass-through normalization every line undergoes when no branch
of `update_files_state` applies to it: blank lines dropped, unparseable
lines kept stripped, parseable lines re-serialized (crashing exactly
where the source's `data.get("file", \x7b\x7d).get("path")` does). -/
def normLines : List String → Py (List String)
  | [] => pure []
  | piece :: rest => do
    let s := pyStrip piece
    if s = "" then normLines rest
    else
      match jsonParse s with
      | none => do
        let ls ← normLines rest
        pure (s :: ls)
      | some d => do
        let fileObj ← pyGet d "file" (.jobj [])
        let _ ← pyGet fileObj "path" .jnull
        let ls ← normLines rest
        pure (dumps d :: ls)

/-- Total observation: the value at `key`, or the default when the
value is not an object or lacks the key. -/
def totGet (v : JVal) (key : String) (default : JVal) : JVal :=
  match v with
  | .jobj fs => (alookup key fs).getD default
  | _ => default

/-- Whether a store line is a parseable record whose `file.path`
equals `src` (total observation used in theorem statements). -/
def pieceIsSrcRecord (src piece : String) : Bool :=
  match jsonParse (pyStrip piece) with
  | some d => pyEq (totGet (totGet d "file" (.jobj [])) "path" .jnull) (.jstr src)
  | none => false

/-- Outcome of `update_files_state` (a `None`-returning function):
store content, index content and the store temp-file operations. -/
structure UpdateResult where
  res : Py Unit
  store : String
  index : String
  trace : List FsOp
deriving Repr

/-- `logger.update_files_state` over an existing readable store. On an
I/O failure while writing the store temp file (`writeOk = false`) the
temp file is removed and the function returns with both files
untouched; a failure inside `regenerate_event_index` is caught, leaving
the new store with the stale index. -/
def update_files_state (store idx : String) (ev src : String) (dest : Option String)
    (fsExists : String → Bool) (loadInfo : String → Option JVal)
    (writeOk regenWriteOk : Bool) : UpdateResult :=
  match updateLoop fsExists loadInfo ev src dest (splitLines store) with
  | .error e => ⟨.error e, store, idx, []⟩
  | .ok lines =>
    let c := joinLines lines
    if !writeOk then ⟨.ok (), store, idx, atomicTrace c false⟩
    else
      match regenerate_event_index c regenWriteOk with
      | .ok out => ⟨.ok (), c, out, atomicTrace c true⟩
      | .error _ => ⟨.ok (), c, idx, atomicTrace c true⟩

-- ===========================================================================
-- FileWatcher.compare_metadata (the diff engine)
-- ===========================================================================

/-- The key loop of `compare_metadata`: for each key of the old
metadata dict (in insertion order), look the key up in the new
metadata (`None` when absent, `AttributeError` when it is not a dict)
and record a `before`/`after` pair when the values differ. -/
def cmpLoop (newMeta : JVal) (acc : List (String × JVal)) :
    List (String × JVal) → Py (List (String × JVal))
  | [] => pure acc
  | (k, ov) :: rest => do
    let nv ← pyGet newMeta k .jnull
    if pyEq ov nv then cmpLoop newMeta acc rest
    else
      let acc' := insertReplace k (.jobj [("before", ov), ("after", nv)]) acc
      cmpLoop newMeta acc' rest

/-- `FileWatcher.compare_metadata`: compares only the `metadata`
sub-objects of the two snapshots.  Iterating a non-dict `old_meta`
raises unless it is empty (`for key in old_meta` over `""` or `[]`
performs no iteration; any non-empty non-dict crashes on
`old_meta.get`/iteration, and a non-iterable raises `TypeError`). -/
def compare_metadata (old new : JVal) : Py (List (String × JVal)) := do
  let oldMeta ← pyGet old "metadata" (.jobj [])
  let newMeta ← pyGet new "metadata" (.jobj [])
  match oldMeta with
  | .jobj fs => cmpLoop newMeta [] fs
  | .jstr s => if s = "" then pure [] else .error ()
  | .jarr xs => if xs.isEmpty then pure [] else .error ()
  | _ => .error ()

-- ===========================================================================
-- FileWatcher.load_files_monitored and the event filter
-- ===========================================================================

/-- The line scan of `FileWatcher.load_files_monitored`: unparseable
lines are skipped; records with a truthy path and truthy monitoring
config populate the `monitored` dict. -/
def loadMonLoop (acc : List (JVal × JVal)) : List String → Py (List (JVal × JVal))
  | [] => pure acc
  | piece :: rest => do
    let s := pyStrip piece
    if s = "" then loadMonLoop acc rest
    else
      match jsonParse s with
      | none => loadMonLoop acc rest
      | some d => do
        let fileObj ← pyGet d "file" (.jobj [])
        let pathVal ← pyGet fileObj "path" .jnull
        let config ← pyGet d "monitoring" (.jobj [])
        if pyTruthy pathVal ∧ pyTruthy config then
          if pyHashable pathVal then
            loadMonLoop (insertReplaceJ pathVal config acc) rest
          else .error ()
        else loadMonLoop acc rest

/-- `FileWatcher.load_files_monitored` over a readable store. -/
def load_files_monitored (store : String) : Py (List (JVal × JVal)) :=
  loadMonLoop [] (splitLines store)

/-- `FileWatcher.EVENT_MAPPING`, the declared mapping of domain event
names to backend (watchdog) event kinds. -/
def EVENT_MAPPING : List (String × List String) :=
  [("modify", ["modified"]), ("delete", ["deleted"]), ("move", ["moved"]),
   ("permissions", ["metadata_changed"]), ("add", ["created"])]

/-- The `if`/`elif` chain of `Handler.dispatch` that maps a backend
event kind to a domain kind (note: it has no case for
`metadata_changed`). -/
def mapRawEvent (raw : String) : Option String :=
  if raw = "modified" then some "modify"
  else if raw = "deleted" then some "delete"
  else if raw = "created" then some "add"
  else if raw = "moved" then some "move"
  else none

/-- Python `x in container` for a string `x`: element membership in a
list, substring test in a string, key membership in a dict,
`TypeError` otherwise. -/
def pyContains (container : JVal) (x : String) : Py Bool :=
  match container with
  | .jarr xs => pure (xs.any (fun y => pyEq y (.jstr x)))
  | .jstr s => pure (if x = "" then true else (s.splitOn x).length ≥ 2)
  | .jobj fs => pure ((alookup x fs).isSome)
  | _ => .error ()

/-- `FileWatcher.Handler.dispatch` over the in-memory `monitored`
configuration: returns the accepted `(domain event, path)` forwarded to
`handle_event`, or `none` for a silent rejection.  `srcPath` stands for
the already-canonicalized `os.path.abspath(event.src_path)`. -/
def dispatch (monitored : List (JVal × JVal)) (rawEvent : String) (srcPath : String) :
    Py (Option (String × String)) :=
  match jlookup (.jstr srcPath) monitored with
  | none => pure none
  | some cfg => do
    let userEvents ← pyGet cfg "watch_events" (.jarr [])
    match mapRawEvent rawEvent with
    | none => pure none
    | some ev => do
      let b ← pyContains userEvents ev
      pure (if b then some (ev, srcPath) else none)

-- ===========================================================================
-- FileWatcher.handle_event and its collaborators
-- ===========================================================================

/-- The persisted files and in-memory cache a `FileWatcher` touches. -/
structure SysState where
  fileInfo : String
  fileEvent : String
  history : String
  cache : List (JVal × JVal)

/-- The environment of one event-processing step: the file system as
observed by `os.path.exists` / `MonitoredFile.load_file_info`
(`none` = the file vanished or became unreadable, raising inside
`load_file_info`), the current wall-clock ISO timestamp, and the
injected success of each file write. -/
structure Env where
  fsExists : String → Bool
  loadInfo : String → Option JVal
  now : String
  histWriteOk : Bool
  storeWriteOk : Bool
  regenWriteOk : Bool

/-- `MonitoredFile.get_current_info`: full metadata when the path is
readable, otherwise the `deleted` marker object. -/
def get_current_info (env : Env) (path : String) : JVal :=
  if env.fsExists path then
    match env.loadInfo path with
    | some d => d
    | none => .jobj [("file", .jobj [("path", .jstr path)]), ("deleted", .jbool true)]
  else .jobj [("file", .jobj [("path", .jstr path)]), ("deleted", .jbool true)]

/-- The slow-path scan of `FileWatcher.load_baseline`: first record
whose `file.path` equals the path. -/
def scanBaseline (path : String) : List String → Py (Option JVal)
  | [] => pure none
  | piece :: rest => do
    let s := pyStrip piece
    if s = "" then scanBaseline path rest
    else
      match jsonParse s with
      | none => scanBaseline path rest
      | some d => do
        let fileObj ← pyGet d "file" (.jobj [])
        let pathVal ← pyGet fileObj "path" .jnull
        if pyEq pathVal (.jstr path) then pure (some d)
        else scanBaseline path rest

/-- `FileWatcher.load_baseline`: cache-first lookup, falling back to a
scan of the store file that also populates the cache. -/
def load_baseline (st : SysState) (path : String) : Py (Option JVal × SysState) :=
  match jlookup (.jstr path) st.cache with
  | some d => pure (some d, st)
  | none => do
    match ← scanBaseline path (splitLines st.fileInfo) with
    | some d => pure (some d, { st with cache := insertReplaceJ (.jstr path) d st.cache })
    | none => pure (none, st)

/-- `logger.save_log_history`: read the history (corrupted or
non-list content starts a fresh list), append the report, rewrite
atomically with `indent=4`; on a write failure the temp file is
removed and the history file stays unchanged. -/
def save_log_history (history : String) (report : JVal) (writeOk : Bool) : String :=
  let allReports : List JVal :=
    match jsonParse history with
    | some (.jarr xs) => xs
    | _ => []
  if writeOk then dumpsI 0 (.jarr (allReports ++ [report])) else history

/-- The alert report dict `handle_event` assembles, in the source's
key insertion order, including the interpretation/recommendation pair
keyed by the event kind. -/
def buildReport (path ev time : String) (alertMode owner perms : JVal)
    (changes : List (String × JVal)) : JVal :=
  let pair : String × String :=
    if ev = "modify" then
      ("File content or metadata was modified", "Review changes and verify legitimacy")
    else if ev = "delete" then
      ("File was deleted from filesystem", "Restore from backup if unauthorized")
    else if ev = "move" then
      ("File was moved or renamed", "Verify new location and update monitoring")
    else if ev = "add" then
      ("New file was created", "Verify file origin and legitimacy")
    else ("Unknown event type", "Manual investigation required")
  .jobj [("File", .jstr path), ("Event", .jstr ev), ("Time", .jstr time),
         ("AlertMode", alertMode), ("Owner", owner), ("Permissions", perms),
         ("Changes", .jobj changes),
         ("Interpretation", .jstr pair.1), ("Recommendation", .jstr pair.2)]

/-- `FileWatcher.handle_event`: processes one accepted domain event.
Returns the state after all side effects together with the report that
was appended to the history and dispatched (`none` when the event was
suppressed and no side effect on the three files occurred; the
baseline cache may still have been populated by `load_baseline`).
An uncaught exception is modelled as `Except.error` without tracking
the partially-updated state. -/
def handle_event (st : SysState) (env : Env) (monitored : List (JVal × JVal))
    (ev path : String) : Py (SysState × Option JVal) := do
  let (oldOpt, st₁) ← load_baseline st path
  let oldState := oldOpt.getD .jnull
  if !pyTruthy oldState then pure (st₁, none)
  else do
    let newState := get_current_info env path
    let changes ← compare_metadata oldState newState
    if changes.isEmpty ∧ ev ≠ "delete" then pure (st₁, none)
    else do
      let cfg := (jlookup (.jstr path) monitored).getD (.jobj [])
      let alertMode ← pyGet cfg "alert_mode" (.jstr "log")
      let meta ← pyGet newState "metadata" (.jobj [])
      let owner ← pyGet meta "owner" (.jstr "unknown")
      let perms ← pyGet meta "permissions" (.jstr "unknown")
      let report := buildReport path ev env.now alertMode owner perms changes
      let hist' := save_log_history st₁.history report env.histWriteOk
      let u := update_files_state st₁.fileInfo st₁.fileEvent ev path none
        env.fsExists env.loadInfo env.storeWriteOk env.regenWriteOk
      match u.res with
      | .error e => .error e
      | .ok _ => do
        let cache' ←
          if ev = "delete" then pure (jremoveKey (.jstr path) st₁.cache)
          else if env.fsExists path then do
            let newBaseline := get_current_info env path
            let mon ← pyGet oldState "monitoring" (.jobj [])
            let nb ← pySetKey newBaseline "monitoring" mon
            pure (insertReplaceJ (.jstr path) nb st₁.cache)
          else pure st₁.cache
        pure ({ fileInfo := u.store, fileEvent := u.index,
                history := hist', cache := cache' }, some report)

-- ===========================================================================
-- logger.delete_old_log_history (history retention)
-- ===========================================================================

/-- A naive-datetime value as compared by Python (field-lexicographic). -/
structure DT where
  year : Nat
  month : Nat
  day : Nat
  hour : Nat
  minute : Nat
  second : Nat
  micro : Nat
deriving DecidableEq, Repr

/-- Monotone encoding of a (validated) datetime for comparisons. -/
def DT.key (t : DT) : Nat :=
  ((((t.year * 13 + t.month) * 32 + t.day) * 24 + t.hour) * 60 + t.minute) * 60000000 +
    t.second * 1000000 + t.micro

/-- Gregorian leap year. -/
def isLeap (y : Nat) : Bool :=
  y % 4 == 0 && (y % 100 != 0 || y % 400 == 0)

/-- Days in a month. -/
def daysInMonth (y m : Nat) : Nat :=
  if m = 2 then (if isLeap y then 29 else 28)
  else if m = 4 ∨ m = 6 ∨ m = 9 ∨ m = 11 then 30
  else 31

/-- Fixed-width digit run. -/
def pFixedDigits (n : Nat) (cs : List Char) : Option (Nat × List Char) :=
  let digs := cs.take n
  if digs.length = n ∧ digs.all Char.isDigit then some (digitsVal digs, cs.drop n)
  else none

/-- The seconds-and-fraction tail `[:SS[.fff|.ffffff]]` of an ISO
time (empty input means zero seconds). -/
def pSecFrac : List Char → Option (Nat × Nat)
  | [] => some (0, 0)
  | ':' :: r =>
    (match pFixedDigits 2 r with
     | some (sec, rest) =>
       if sec ≤ 59 then
         match rest with
         | [] => some (sec, 0)
         | '.' :: fr =>
           (match pFixedDigits 6 fr with
            | some (us, []) => some (sec, us)
            | _ =>
              match pFixedDigits 3 fr with
              | some (ms, []) => some (sec, ms * 1000)
              | _ => none)
         | _ => none
       else none
     | none => none)
  | _ => none

/-- The time part `HH:MM` followed by `pSecFrac`. -/
def pTimePart : List Char → Option (Nat × Nat × Nat × Nat)
  | cs =>
    match pFixedDigits 2 cs with
    | some (h, ':' :: r) =>
      (match pFixedDigits 2 r with
       | some (mi, rest) =>
         if h ≤ 23 ∧ mi ≤ 59 then
           match pSecFrac rest with
           | some (sec, us) => some (h, mi, sec, us)
           | none => none
         else none
       | none => none)
    | _ => none

/-- `datetime.fromisoformat` for naive timestamps:
`YYYY-MM-DD[<sep>HH:MM[:SS[.fff|.ffffff]]]` with range validation; the
separator may be any single character, as in CPython.  Timezone
offsets are outside the model. -/
def fromisoformat (s : String) : Option DT :=
  match pFixedDigits 4 s.toList with
  | some (y, '-' :: r₁) =>
    (match pFixedDigits 2 r₁ with
     | some (mo, '-' :: r₃) =>
       (match pFixedDigits 2 r₃ with
        | some (d, r₄) =>
          if 1 ≤ mo ∧ mo ≤ 12 ∧ 1 ≤ d ∧ d ≤ daysInMonth y mo then
            match r₄ with
            | [] => some ⟨y, mo, d, 0, 0, 0, 0⟩
            | _ :: r₅ =>
              match pTimePart r₅ with
              | some (h, mi, sec, us) => some ⟨y, mo, d, h, mi, sec, us⟩
              | none => none
          else none
        | _ => none)
     | _ => none)
  | _ => none

/-- `now - relativedelta(years=n)`: same calendar date `n` years back,
with Feb 29 clamped to Feb 28 in a non-leap target year. -/
def subYears (t : DT) (n : Nat) : DT :=
  let y := t.year - n
  if t.month = 2 ∧ t.day = 29 ∧ ¬isLeap y then { t with year := y, day := 28 }
  else { t with year := y }

/-- How `delete_old_log_history` treats one history entry: keep it
(missing `Time` key raises a caught `KeyError`; an unparseable string
raises a caught `ValueError`; a recent timestamp passes the cutoff),
drop it (strictly older than the cutoff), or crash the whole prune
(subscripting a non-dict entry or `fromisoformat` on a non-string both
raise `TypeError`, which the source does not catch). -/
inductive EntryFate where
  | keep : EntryFate
  | drop : EntryFate
  | crash : EntryFate
deriving DecidableEq, Repr

/-- Classification of one entry against the cutoff. -/
def entryFate (cutoff : DT) (e : JVal) : EntryFate :=
  match e with
  | .jobj fs =>
    match alookup "Time" fs with
    | none => .keep
    | some (.jstr s) =>
      match fromisoformat s with
      | none => .keep
      | some t => if cutoff.key ≤ t.key then .keep else .drop
    | some _ => .crash
  | _ => .crash

/-- Outcome of `delete_old_log_history`: the Python return value
(always `None` — the count is only printed), the history file's final
content, and the printed deleted count. -/
structure PruneResult where
  res : Py (Option Nat)
  history : String
  printed : Option Nat
deriving Repr

/-- `logger.delete_old_log_history` over an existing readable history
file, with `now` the current datetime: entries kept are those
`entryFate` keeps; the result is rewritten atomically (with the same
temp-file discipline) and the number of deleted entries printed.
A JSON-decode failure returns early; iterating a non-list parse
result crashes unless it is empty. -/
def delete_old_log_history (history : String) (now : DT) (retentionYears : Nat)
    (writeOk : Bool) : PruneResult :=
  match jsonParse history with
  | none => ⟨.ok none, history, none⟩
  | some v =>
    let entries : Option (List JVal) :=
      match v with
      | .jarr xs => some xs
      | .jobj [] => some []
      | .jstr "" => some []
      | _ => none
    match entries with
    | none => ⟨.error (), history, none⟩
    | some xs =>
      let cutoff := subYears now retentionYears
      if xs.any (fun e => entryFate cutoff e = .crash) then ⟨.error (), history, none⟩
      else
        let kept := xs.filter (fun e => entryFate cutoff e = .keep)
        if writeOk then
          ⟨.ok none, dumpsI 0 (.jarr kept), some (xs.length - kept.length)⟩
        else ⟨.ok none, history, none⟩

-- ===========================================================================
-- file_monitoring.validate_path
-- ===========================================================================

/-- The deny-list of `validate_path`. -/
def forbidden_patterns : List String :=
  ["/etc/shadow", "/etc/passwd", "/root/.ssh", "/proc", "/sys"]

/-- Python `str.startswith`: the first string starts with the second
(character-level prefix test). -/
def pyStartsWith (s pre : String) : Bool :=
  pre.toList.isPrefixOf s.toList

/-- The deny-list scan: `False` as soon as a forbidden pattern is a
string prefix of the absolute path, else `True`. -/
def forbiddenOk (absPath : String) : Bool :=
  forbidden_patterns.all (fun p => !pyStartsWith absPath p)

/-- `file_monitoring.validate_path` on the already-absolute path
(`os.path.abspath` is the identity on the absolute inputs considered):
a falsy `allowed_dirs` (`None` or the empty list) skips the allow-list
check entirely; otherwise some allowed directory must be a string
prefix; then the deny-list prefixes are tested. -/
def validate_path (absPath : String) (allowedDirs : Option (List String)) : Bool :=
  match allowedDirs with
  | none => forbiddenOk absPath
  | some [] => forbiddenOk absPath
  | some (d :: ds) =>
    if (d :: ds).any (fun a => pyStartsWith absPath a) then forbiddenOk absPath
    else false

-- ===========================================================================
-- Shared concrete fixtures for witnesses and counterexamples
-- ===========================================================================

/-- A store line for a record at `/a` (already in `json.dumps` form). -/
def sampleLineA : String :=
  "\x7b\"file\": \x7b\"path\": \"/a\"\x7d, \"monitoring\": \x7b\"watch_events\": [\"modify\"], \"alert_mode\": \"log\"\x7d\x7d"

/-- A store line for a record at `/b` (already in `json.dumps` form). -/
def sampleLineB : String :=
  "\x7b\"file\": \x7b\"path\": \"/b\"\x7d, \"monitoring\": \x7b\"watch_events\": [\"delete\"], \"alert_mode\": \"email\"\x7d\x7d"

/-- A store with two records and one corrupt line. -/
def sampleStore : String :=
  sampleLineA ++ "\n" ++ "corrupt \n" ++ sampleLineB ++ "\n"

/-- The monitoring block of the record at `/a`. -/
def sampleRecACfg : JVal :=
  .jobj [("watch_events", .jarr [.jstr "modify"]), ("alert_mode", .jstr "log")]

/-- The parsed record at `/a`. -/
def sampleRecA : JVal :=
  .jobj [("file", .jobj [("path", .jstr "/a")]),
         ("monitoring", .jobj [("watch_events", .jarr [.jstr "modify"]),
                               ("alert_mode", .jstr "log")])]

-- ===========================================================================
-- Theorems for the claims
-- ===========================================================================

/-- C10: `validate_path` admits by plain string-prefix tests: it
rejects exactly when a deny-list entry is a string prefix of the
absolute path or a non-empty allow-list is supplied none of whose
directories is a string prefix; a `none`/empty allow-list skips that
check, and sibling paths such as `/home2/x` under `/home` or
`/procfoo` under `/proc` are classified by the string prefix. -/
theorem C10_validate_path_prefix_semantics :
    (∀ (p : String) (ds : Option (List String)),
       validate_path p ds = false ↔
         ((∃ f ∈ forbidden_patterns, pyStartsWith p f) ∨
          (∃ l, ds = some l ∧ l ≠ [] ∧ ∀ d ∈ l, ¬ pyStartsWith p d))) ∧
    validate_path ("/home2/x") (some ["/home", "/var/log", "/opt", "/srv", "/tmp"]) = true ∧
    validate_path ("/procfoo") none = false ∧
    validate_path ("/etc/hosts") none = true ∧
    validate_path ("/etc/hosts") (some []) = true := by
  refine ⟨?_, by decide, by decide, by decide, by decide⟩
  intro p ds
  have hforb : forbiddenOk p = false ↔ ∃ f ∈ forbidden_patterns, pyStartsWith p f := by
    simp [forbiddenOk, List.all_eq_true]
  cases ds with
  | none =>
    simp only [validate_path, hforb]
    constructor
    · intro h; exact Or.inl h
    · rintro (h | ⟨l, hl, _⟩)
      · exact h
      · exact Option.noConfusion hl
  | some l =>
    cases l with
    | nil =>
      simp only [validate_path, hforb]
      constructor
      · intro h; exact Or.inl h
      · rintro (h | ⟨l', hl', hne, _⟩)
        · exact h
        · cases hl'; exact absurd rfl hne
    | cons d ds' =>
      simp only [validate_path]
      by_cases hany : (d :: ds').any (fun a => pyStartsWith p a) = true
      · rw [if_pos hany, hforb]
        constructor
        · intro h; exact Or.inl h
        · rintro (h | ⟨l', hl', _, hall⟩)
          · exact h
          · cases hl'
            rcases List.any_eq_true.mp hany with ⟨a, ha, hsa⟩
            exact absurd (by simpa using hsa) (hall a ha)
      · rw [if_neg hany]
        constructor
        · intro _
          refine Or.inr ⟨d :: ds', rfl, by simp, ?_⟩
          intro a ha hsa
          exact hany (List.any_eq_true.mpr ⟨a, ha, by simpa using hsa⟩)
        · intro _; rfl

/-- C10 witness: the general characterization applied at `/procfoo`
with no allow-list. -/
theorem C10_witness :
    validate_path ("/procfoo") none = false ↔
      ((∃ f ∈ forbidden_patterns, pyStartsWith ("/procfoo") f) ∨
       (∃ l, (none : Option (List String)) = some l ∧ l ≠ [] ∧
          ∀ d ∈ l, ¬ pyStartsWith ("/procfoo") d)) :=
  C10_validate_path_prefix_semantics.1 ("/procfoo") none

/-- C8: regenerating the event index is a deterministic function of
the store content that never reads the previous index, so running it
twice with no intervening store mutation leaves byte-identical index
content: the second run reproduces the first run's output exactly
(when a run raises, the index file is simply left unchanged). -/
theorem C8_regenerate_event_index_idempotent :
    ∀ (store : String) (writeOk : Bool) (idx : String),
      regenStep store writeOk (regenStep store writeOk idx) = regenStep store writeOk idx := by
  intro store writeOk idx
  unfold regenStep
  cases h : regenerate_event_index store writeOk <;> simp

/-- C1 (amended): every mutating rewrite of the baseline store
(`remove_monitored_file_info`, `set_conf`, `update_files_state`)
writes the new content to a temporary sibling file and then atomically
renames it over the original — with no fsync-equivalent in between —
and on an I/O failure while writing the temporary file it removes the
temp file, leaves the prior store content byte-for-byte unchanged, and
reports failure. -/
theorem C1_store_rewrites_atomic :
    (∀ (store target : String) (lines : List String) (removed : Bool),
       removeLoop target (splitLines store) = .ok (lines, removed) →
       (remove_monitored_file_info store target false).store = store ∧
       (remove_monitored_file_info store target false).trace =
         [.writeTemp (joinLines lines), .removeTemp] ∧
       (remove_monitored_file_info store target false).res = .ok false ∧
       (remove_monitored_file_info store target true).store = joinLines lines ∧
       (remove_monitored_file_info store target true).trace =
         [.writeTemp (joinLines lines), .chmodTemp, .renameTempOver]) ∧
    (∀ (store target cType : String) (ne na : JVal) (idx : String) (lines : List String),
       setConfLoop target cType ne na (splitLines store) = .ok (lines, true) →
       ∀ rOk : Bool,
       (set_conf store target cType ne na idx false rOk).store = store ∧
       (set_conf store target cType ne na idx false rOk).index = idx ∧
       (set_conf store target cType ne na idx false rOk).trace =
         [.writeTemp (joinLines lines), .removeTemp] ∧
       (set_conf store target cType ne na idx false rOk).res = .ok false ∧
       (set_conf store target cType ne na idx true rOk).store = joinLines lines ∧
       (set_conf store target cType ne na idx true rOk).trace =
         [.writeTemp (joinLines lines), .chmodTemp, .renameTempOver]) ∧
    (∀ (store idx ev src : String) (dest : Option String)
       (fs : String → Bool) (li : String → Option JVal) (lines : List String),
       updateLoop fs li ev src dest (splitLines store) = .ok lines →
       ∀ rOk : Bool,
       (update_files_state store idx ev src dest fs li false rOk).store = store ∧
       (update_files_state store idx ev src dest fs li false rOk).index = idx ∧
       (update_files_state store idx ev src dest fs li false rOk).trace =
         [.writeTemp (joinLines lines), .removeTemp] ∧
       (update_files_state store idx ev src dest fs li true rOk).store = joinLines lines ∧
       (update_files_state store idx ev src dest fs li true rOk).trace =
         [.writeTemp (joinLines lines), .chmodTemp, .renameTempOver]) := by
  refine ⟨?_, ?_, ?_⟩
  · intro store target lines removed h
    simp [remove_monitored_file_info, h, atomicTrace]
  · intro store target cType ne na idx lines h rOk
    cases hr : regenerate_event_index (joinLines lines) rOk <;>
      simp [set_conf, h, hr, atomicTrace]
  · intro store idx ev src dest fs li lines h rOk
    cases hr : regenerate_event_index (joinLines lines) rOk <;>
      simp [update_files_state, h, hr, atomicTrace]

/-- C1 counterexample: no fsync-equivalent is performed between the
temp write and the rename — the rewrite's file-system trace at a
concrete store contains no fsync operation. -/
theorem C1_counterexample_no_fsync :
    FsOp.fsyncTemp ∉ (remove_monitored_file_info sampleStore ("/a") true).trace ∧
    (remove_monitored_file_info sampleStore ("/a") true).trace =
      [.writeTemp ("corrupt\n" ++ sampleLineB ++ "\n"), .chmodTemp, .renameTempOver] := by
  constructor
  · intro h
    have : (remove_monitored_file_info sampleStore ("/a") true).trace =
        [.writeTemp ("corrupt\n" ++ sampleLineB ++ "\n"), .chmodTemp, .renameTempOver] := by
      rfl
    rw [this] at h
    simp at h
  · rfl

/-- C1 witness: the amended theorem applied to the concrete sample
store, with the loop hypothesis discharged by evaluation. -/
theorem C1_witness :
    (remove_monitored_file_info sampleStore ("/a") false).store = sampleStore ∧
    (remove_monitored_file_info sampleStore ("/a") false).trace =
      [.writeTemp (joinLines ["corrupt", sampleLineB]), .removeTemp] ∧
    (remove_monitored_file_info sampleStore ("/a") false).res = .ok false ∧
    (remove_monitored_file_info sampleStore ("/a") true).store =
      joinLines ["corrupt", sampleLineB] ∧
    (remove_monitored_file_info sampleStore ("/a") true).trace =
      [.writeTemp (joinLines ["corrupt", sampleLineB]), .chmodTemp, .renameTempOver] :=
  C1_store_rewrites_atomic.1 sampleStore ("/a") ["corrupt", sampleLineB] true (by rfl)

/-- A run of `regenerate_event_index` whose index write fails always
raises (after removing its temp file). -/
theorem regenerate_event_index_write_fail (s : String) :
    regenerate_event_index s false = .error () := by
  unfold regenerate_event_index
  cases h : regenLoop [] (splitLines s) <;>
    simp [h, Bind.bind, Except.bind]

/-- C6: a `set_conf` mutation that rewrote the store regenerates the
Event Index before returning success: if the regeneration raises
(here: its index write fails), `set_conf` returns `False` even though
the store write has already succeeded and the new content is in
place; and whenever `set_conf` returns `True`, the final index content
is exactly the regeneration of the final store content. -/
theorem C6_set_conf_regen_failure_surfaced :
    (∀ (store target cType : String) (ne na : JVal) (idx : String) (lines : List String),
       setConfLoop target cType ne na (splitLines store) = .ok (lines, true) →
       (set_conf store target cType ne na idx true false).res = .ok false ∧
       (set_conf store target cType ne na idx true false).store = joinLines lines ∧
       (set_conf store target cType ne na idx true false).index = idx) ∧
    (∀ (store target cType : String) (ne na : JVal) (idx : String) (wOk rOk : Bool),
       (set_conf store target cType ne na idx wOk rOk).res = .ok true →
       regenerate_event_index (set_conf store target cType ne na idx wOk rOk).store rOk =
         .ok (set_conf store target cType ne na idx wOk rOk).index) := by
  constructor
  · intro store target cType ne na idx lines h
    simp [set_conf, h, regenerate_event_index_write_fail]
  · intro store target cType ne na idx wOk rOk hres
    unfold set_conf at hres ⊢
    cases hl : setConfLoop target cType ne na (splitLines store) with
    | error e => simp [hl] at hres
    | ok p =>
      obtain ⟨lines, updated⟩ := p
      cases updated with
      | false => simp [hl] at hres
      | true =>
        cases wOk with
        | false => simp [hl] at hres
        | true =>
          cases hr : regenerate_event_index (joinLines lines) rOk with
          | error e => simp [hl, hr] at hres
          | ok out => simp [hl, hr]

/-- C6 witness: on the sample store, `SET_ALERT` with a failing index
regeneration returns `False` while the store already holds the new
content; with a working regeneration it returns `True` and the index
equals the regeneration of the new store. -/
theorem C6_witness :
    ((set_conf sampleStore ("/b") ("SET_ALERT") .jnull (.jstr "system") ("IDX") true false).res =
       .ok false ∧
     (set_conf sampleStore ("/b") ("SET_ALERT") .jnull (.jstr "system") ("IDX") true false).store =
       joinLines [sampleLineA, "corrupt",
         "\x7b\"file\": \x7b\"path\": \"/b\"\x7d, \"monitoring\": \x7b\"watch_events\": [\"delete\"], \"alert_mode\": \"system\"\x7d\x7d"] ∧
     (set_conf sampleStore ("/b") ("SET_ALERT") .jnull (.jstr "system") ("IDX") true false).index =
       "IDX") ∧
    regenerate_event_index
        (set_conf sampleStore ("/b") ("SET_ALERT") .jnull (.jstr "system") ("IDX") true true).store
        true =
      .ok (set_conf sampleStore ("/b") ("SET_ALERT") .jnull (.jstr "system") ("IDX") true true).index :=
  ⟨C6_set_conf_regen_failure_surfaced.1 sampleStore ("/b") ("SET_ALERT") .jnull (.jstr "system")
      ("IDX")
      [sampleLineA, "corrupt",
       "\x7b\"file\": \x7b\"path\": \"/b\"\x7d, \"monitoring\": \x7b\"watch_events\": [\"delete\"], \"alert_mode\": \"system\"\x7d\x7d"]
      (by rfl),
   C6_set_conf_regen_failure_surfaced.2 sampleStore ("/b") ("SET_ALERT") .jnull (.jstr "system")
      ("IDX") true true (by rfl)⟩

/-- The configuration used by the C7 counterexample: `/a` is monitored
with the `permissions` event requested. -/
def permCfg : JVal :=
  .jobj [("watch_events", .jarr [.jstr "permissions"]), ("alert_mode", .jstr "log")]

/-- A monitored map watching only `permissions` on `/a`. -/
def permMonitored : List (JVal × JVal) := [(.jstr "/a", permCfg)]

/-- C7 counterexample: `EVENT_MAPPING` maps the backend kind
`metadata_changed` to the domain kind `permissions`, and `/a`'s
watch-events contain `permissions`, yet `dispatch` silently rejects
the notification — its `if`/`elif` chain maps only four backend kinds,
so the claimed five-kind mapping does not describe the filter. -/
theorem C7_counterexample_permissions_never_forwarded :
    dispatch permMonitored ("metadata_changed") ("/a") = .ok none ∧
    ("permissions", ["metadata_changed"]) ∈ EVENT_MAPPING ∧
    pyContains (totGet permCfg "watch_events" (.jarr [])) ("permissions") = .ok true := by
  refine ⟨by rfl, by decide, by rfl⟩

/-- C7 (amended): `dispatch` forwards a raw notification iff the
canonicalized path is a key of the monitored configuration, the
backend kind is one of the four kinds `modified`/`deleted`/`created`/
`moved` (mapped to `modify`/`delete`/`add`/`move`; every other kind —
including `metadata_changed`, so the `permissions` domain kind is
never produced — is rejected), and the mapped kind is a member of the
path's configured watch-events; all rejections return silently. -/
theorem C7_dispatch_filter :
    (∀ raw : String,
       (mapRawEvent raw).isSome ↔ raw ∈ ["modified", "deleted", "created", "moved"]) ∧
    (mapRawEvent ("modified") = some "modify" ∧ mapRawEvent ("deleted") = some "delete" ∧
     mapRawEvent ("created") = some "add" ∧ mapRawEvent ("moved") = some "move" ∧
     mapRawEvent ("metadata_changed") = none) ∧
    (∀ (monitored : List (JVal × JVal)) (raw path : String),
       jlookup (.jstr path) monitored = none → dispatch monitored raw path = .ok none) ∧
    (∀ (monitored : List (JVal × JVal)) (raw path : String) (cfg ue : JVal),
       jlookup (.jstr path) monitored = some cfg →
       pyGet cfg "watch_events" (.jarr []) = .ok ue →
       (mapRawEvent raw = none → dispatch monitored raw path = .ok none) ∧
       (∀ (ev : String) (b : Bool), mapRawEvent raw = some ev → pyContains ue ev = .ok b →
          dispatch monitored raw path = .ok (if b then some (ev, path) else none))) := by
  refine ⟨?_, ⟨rfl, rfl, rfl, rfl, rfl⟩, ?_, ?_⟩
  · intro raw
    unfold mapRawEvent
    split_ifs with h₁ h₂ h₃ h₄ <;> simp_all
  · intro monitored raw path h
    simp [dispatch, h, Pure.pure, Except.pure]
  · intro monitored raw path cfg ue hcfg hue
    constructor
    · intro hmap
      simp [dispatch, hcfg, hue, hmap, Bind.bind, Except.bind, Pure.pure, Except.pure]
    · intro ev b hmap hc
      simp [dispatch, hcfg, hue, hmap, hc, Bind.bind, Except.bind, Pure.pure, Except.pure,
        Functor.map, Except.map]

/-- C7 witness: the accept case of the amended filter — `modified` on
a path watching `modify` is forwarded as the domain event. -/
theorem C7_witness :
    dispatch [((.jstr "/a"), sampleRecACfg)] ("modified") ("/a") = .ok (some ("modify", "/a")) := by
  have h := ((C7_dispatch_filter.2.2.2 [((.jstr "/a"), sampleRecACfg)] ("modified") ("/a")
      sampleRecACfg (.jarr [.jstr "modify"]) (by rfl) (by rfl)).2 ("modify") true (by rfl) (by rfl))
  simpa using h

/-- A history whose second entry has a numeric `Time` value. -/
def badHist : String :=
  "[\x7b\"Time\": \"2020-01-01T00:00:00\"\x7d, \x7b\"Time\": 5\x7d]"

/-- C5 counterexample: on a history holding an entry timestamped more
than 2 years ago and an entry whose `Time` is the number `5`, the
claim demands that the old entry be dropped, the unparseable one
retained, the result rewritten and the count `1` returned; instead
`datetime.fromisoformat(5)` raises a `TypeError` that the
`except (KeyError, ValueError)` clause does not catch, so the prune
aborts: nothing is rewritten, nothing is printed, and no count is
returned. -/
theorem C5_counterexample_nonstring_time :
    (delete_old_log_history badHist ⟨2026, 10, 12, 0, 0, 0, 0⟩ 2 true).res = .error () ∧
    (delete_old_log_history badHist ⟨2026, 10, 12, 0, 0, 0, 0⟩ 2 true).history = badHist ∧
    (delete_old_log_history badHist ⟨2026, 10, 12, 0, 0, 0, 0⟩ 2 true).printed = none :=
  ⟨rfl, rfl, rfl⟩

/-- C5 (amended): over a history of JSON-object entries none of which
carries a non-string `Time` value (a non-string value raises an
uncaught `TypeError` that aborts the prune), `delete_old_log_history`
keeps exactly the entries whose `Time` is missing, an unparseable
string, or not strictly older than the cutoff `now` minus the
retention period; the result is rewritten atomically and the number of
removed entries is printed — the function itself returns `None`, not
the count. -/
theorem C5_prune_retention :
    (∀ (h : String) (now : DT) (ry : Nat) (xs : List JVal),
       jsonParse h = some (.jarr xs) →
       (∀ e ∈ xs, entryFate (subYears now ry) e ≠ .crash) →
       (delete_old_log_history h now ry true).res = .ok none ∧
       (delete_old_log_history h now ry true).history =
         dumpsI 0 (.jarr (xs.filter (fun e => entryFate (subYears now ry) e = .keep))) ∧
       (delete_old_log_history h now ry true).printed =
         some (xs.length -
           (xs.filter (fun e => entryFate (subYears now ry) e = .keep)).length)) ∧
    (∀ (cutoff : DT) (fs : List (String × JVal)),
       (alookup ("Time") fs = none → entryFate cutoff (.jobj fs) = .keep) ∧
       (∀ s, alookup ("Time") fs = some (.jstr s) → fromisoformat s = none →
          entryFate cutoff (.jobj fs) = .keep) ∧
       (∀ s t, alookup ("Time") fs = some (.jstr s) → fromisoformat s = some t →
          (entryFate cutoff (.jobj fs) = .drop ↔ t.key < cutoff.key))) := by
  constructor
  · intro h now ry xs hp hnc
    have hany : xs.any (fun e => entryFate (subYears now ry) e = .crash) = false := by
      rw [List.any_eq_false]
      intro e he
      simpa using hnc e he
    refine ⟨?_, ?_, ?_⟩ <;> simp [delete_old_log_history, hp, hany]
  · intro cutoff fs
    refine ⟨?_, ?_, ?_⟩
    · intro h
      simp [entryFate, h]
    · intro s hs hiso
      simp [entryFate, hs, hiso]
    · intro s t hs hiso
      simp only [entryFate, hs, hiso]
      split_ifs with hle
      · constructor
        · intro h
          exact absurd h (by simp)
        · intro h
          omega
      · simp
        omega

/-- The spec's retention example: an entry timestamped now, one with
an unparseable timestamp, and one more than two years old. -/
def goodHist : String :=
  "[\x7b\"Time\": \"2026-10-12T00:00:00\"\x7d, \x7b\"Time\": \"nonsense\"\x7d, \x7b\"Time\": \"2020-01-01T00:00:00\"\x7d]"

/-- The parsed entries of `goodHist`. -/
def goodEntries : List JVal :=
  [.jobj [("Time", .jstr "2026-10-12T00:00:00")],
   .jobj [("Time", .jstr "nonsense")],
   .jobj [("Time", .jstr "2020-01-01T00:00:00")]]

/-- C5 witness: a 2-year prune at 2026-10-12 keeps the entry
timestamped now and the one with an unparseable timestamp, drops the
entry from 2020, rewrites the result and prints 1. -/
theorem C5_witness :
    (delete_old_log_history goodHist ⟨2026, 10, 12, 0, 0, 0, 0⟩ 2 true).res = .ok none ∧
    (delete_old_log_history goodHist ⟨2026, 10, 12, 0, 0, 0, 0⟩ 2 true).history =
      dumpsI 0 (.jarr (goodEntries.filter
        (fun e => entryFate (subYears ⟨2026, 10, 12, 0, 0, 0, 0⟩ 2) e = .keep))) ∧
    (delete_old_log_history goodHist ⟨2026, 10, 12, 0, 0, 0, 0⟩ 2 true).printed =
      some (goodEntries.length -
        (goodEntries.filter
          (fun e => entryFate (subYears ⟨2026, 10, 12, 0, 0, 0, 0⟩ 2) e = .keep)).length) :=
  C5_prune_retention.1 goodHist ⟨2026, 10, 12, 0, 0, 0, 0⟩ 2 goodEntries (by rfl) (by decide)

/-- `load_baseline` touches only the in-memory cache: the three files
of the state it returns are those of the input state. -/
theorem load_baseline_files_eq (st : SysState) (path : String) (o : Option JVal)
    (st₁ : SysState) (h : load_baseline st path = .ok (o, st₁)) :
    st₁.fileInfo = st.fileInfo ∧ st₁.fileEvent = st.fileEvent ∧ st₁.history = st.history := by
  unfold load_baseline at h
  cases hc : jlookup (.jstr path) st.cache with
  | some d =>
    rw [hc] at h
    simp [Pure.pure, Except.pure] at h
    obtain ⟨-, h₂⟩ := h
    subst h₂
    exact ⟨rfl, rfl, rfl⟩
  | none =>
    rw [hc] at h
    cases hs : scanBaseline path (splitLines st.fileInfo) with
    | error e => simp [hs, Bind.bind, Except.bind] at h
    | ok r =>
      cases r with
      | none =>
        simp [hs, Bind.bind, Except.bind, Pure.pure, Except.pure] at h
        obtain ⟨-, h₂⟩ := h
        subst h₂
        exact ⟨rfl, rfl, rfl⟩
      | some d =>
        simp [hs, Bind.bind, Except.bind, Pure.pure, Except.pure] at h
        obtain ⟨-, h₂⟩ := h
        subst h₂
        exact ⟨rfl, rfl, rfl⟩

/-- C3: an accepted event whose computed change set is empty is
suppressed unless it is a `delete`: `handle_event` returns with no
report, no history append, no alert dispatch and no store or index
mutation (only the read-through baseline cache may have been
populated); conversely, whenever `handle_event` does produce a report
whose change set is empty, the event kind is `delete`. -/
theorem C3_empty_diff_suppressed :
    (∀ (st : SysState) (env : Env) (monitored : List (JVal × JVal)) (ev path : String)
       (oldOpt : Option JVal) (st₁ : SysState),
       load_baseline st path = .ok (oldOpt, st₁) →
       compare_metadata (oldOpt.getD .jnull) (get_current_info env path) = .ok [] →
       ev ≠ "delete" →
       handle_event st env monitored ev path = .ok (st₁, none) ∧
       st₁.fileInfo = st.fileInfo ∧ st₁.fileEvent = st.fileEvent ∧ st₁.history = st.history) ∧
    (∀ (st : SysState) (env : Env) (monitored : List (JVal × JVal)) (ev path : String)
       (st' : SysState) (r : JVal),
       handle_event st env monitored ev path = .ok (st', some r) →
       totGet r ("Changes") .jnull = .jobj [] →
       ev = "delete") := by
  constructor
  · intro st env monitored ev path oldOpt st₁ hlb hcmp hev
    refine ⟨?_, load_baseline_files_eq st path oldOpt st₁ hlb⟩
    unfold handle_event
    rw [hlb]
    by_cases ht : pyTruthy (oldOpt.getD .jnull) = true
    · simp [ht, hcmp, hev, Bind.bind, Except.bind, Pure.pure, Except.pure]
    · simp [ht, Bind.bind, Except.bind, Pure.pure, Except.pure]
  · intro st env monitored ev path st' r hrun hch
    unfold handle_event at hrun
    cases hlb : load_baseline st path with
    | error e => rw [hlb] at hrun; exact absurd hrun (by simp [Bind.bind, Except.bind])
    | ok p =>
      obtain ⟨oldOpt, st₁⟩ := p
      rw [hlb] at hrun
      simp only [Bind.bind, Except.bind] at hrun
      by_cases ht : pyTruthy (oldOpt.getD .jnull) = true
      · rw [if_neg (by simp [ht])] at hrun
        cases hcmp : compare_metadata (oldOpt.getD .jnull) (get_current_info env path) with
        | error e => rw [hcmp] at hrun; exact absurd hrun (by simp)
        | ok changes =>
          simp only [hcmp] at hrun
          by_cases hsup : changes.isEmpty = true ∧ ev ≠ "delete"
          · rw [if_pos hsup] at hrun
            simp [Pure.pure, Except.pure] at hrun
          · rw [if_neg hsup] at hrun
            by_cases hev : ev = "delete"
            · exact hev
            · exfalso
              have hje : JVal.jobj changes = .jobj [] := by
                cases ham : pyGet ((jlookup (.jstr path) monitored).getD (.jobj []))
                    ("alert_mode") (.jstr "log") with
                | error e => rw [ham] at hrun; exact absurd hrun (by simp)
                | ok am =>
                  simp only [ham] at hrun
                  cases hmeta : pyGet (get_current_info env path) ("metadata") (.jobj []) with
                  | error e => rw [hmeta] at hrun; exact absurd hrun (by simp)
                  | ok meta =>
                    simp only [hmeta] at hrun
                    cases how : pyGet meta ("owner") (.jstr "unknown") with
                    | error e => rw [how] at hrun; exact absurd hrun (by simp)
                    | ok ow =>
                      simp only [how] at hrun
                      cases hpe : pyGet meta ("permissions") (.jstr "unknown") with
                      | error e => rw [hpe] at hrun; exact absurd hrun (by simp)
                      | ok pe =>
                        simp only [hpe] at hrun
                        cases hu : (update_files_state st₁.fileInfo st₁.fileEvent ev path none
                            env.fsExists env.loadInfo env.storeWriteOk env.regenWriteOk).res with
                        | error e => rw [hu] at hrun; exact absurd hrun (by simp)
                        | ok uu =>
                          simp only [hu] at hrun
                          have hrep : some r = some (buildReport path ev env.now am ow pe changes) := by
                            by_cases hdel : ev = "delete"
                            · rw [if_pos hdel] at hrun
                              simp [Pure.pure, Except.pure] at hrun
                              exact congrArg some hrun.2.symm
                            · rw [if_neg hdel] at hrun
                              by_cases hfe : env.fsExists path = true
                              · rw [if_pos hfe] at hrun
                                cases hmon : pyGet (oldOpt.getD .jnull) ("monitoring") (.jobj []) with
                                | error e => rw [hmon] at hrun; exact absurd hrun (by simp)
                                | ok mon =>
                                  simp only [hmon] at hrun
                                  cases hnb : pySetKey (get_current_info env path) ("monitoring") mon with
                                  | error e => rw [hnb] at hrun; exact absurd hrun (by simp)
                                  | ok nb =>
                                    simp only [hnb] at hrun
                                    simp [Pure.pure, Except.pure] at hrun
                                    exact congrArg some hrun.2.symm
                              · rw [if_neg hfe] at hrun
                                simp [Pure.pure, Except.pure] at hrun
                                exact congrArg some hrun.2.symm
                          have : r = buildReport path ev env.now am ow pe changes :=
                            Option.some.inj hrep
                          subst this
                          have := hch
                          simpa [buildReport, totGet, alookup] using this
              have hempty : changes = [] := by
                injection hje
              apply hsup
              exact ⟨by simp [hempty], fun hd => hev hd⟩
      · rw [if_pos (by simp [ht])] at hrun
        simp [Pure.pure, Except.pure] at hrun

/-- Environment for the C3 witness: the path exists and re-reads as
the unchanged baseline record. -/
def envW : Env :=
  ⟨fun _ => true, fun _ => some sampleRecA, "2026-10-12T08:00:00", true, true, true⟩

/-- State for the C3 witness: the baseline cache holds `/a`. -/
def stW : SysState :=
  ⟨sampleStore, "IDX", "[]", [(.jstr "/a", sampleRecA)]⟩

/-- C3 witness: a `modify` notification whose recomputed metadata is
unchanged from the stored baseline produces no report and leaves the
store, index and history files untouched. -/
theorem C3_witness :
    handle_event stW envW [] ("modify") ("/a") = .ok (stW, none) ∧
    stW.fileInfo = stW.fileInfo ∧ stW.fileEvent = stW.fileEvent ∧
    stW.history = stW.history :=
  C3_empty_diff_suppressed.1 stW envW [] ("modify") ("/a") (some sampleRecA) stW
    (by rfl) (by rfl) (by decide)

-- ===========================================================================
-- C4: the diff engine
-- ===========================================================================

/-- `alookup` across an append: the left list wins. -/
theorem alookup_append (k : String) (l₁ l₂ : List (String × JVal)) :
    alookup k (l₁ ++ l₂) = (alookup k l₁).elim (alookup k l₂) some := by
  induction l₁ with
  | nil => simp [alookup]
  | cons kv tl ih =>
    obtain ⟨k', v⟩ := kv
    by_cases h : k' = k <;> simp [alookup, h, ih]

/-- A key outside the key list is not found. -/
theorem alookup_eq_none (k : String) (fs : List (String × JVal))
    (h : k ∉ fs.map Prod.fst) : alookup k fs = none := by
  induction fs with
  | nil => rfl
  | cons kv tl ih =>
    obtain ⟨k', v⟩ := kv
    simp only [List.map_cons, List.mem_cons] at h
    push_neg at h
    simp [alookup, Ne.symm h.1, ih h.2]

/-- With duplicate-free keys, `alookup` finds each entry's own value. -/
theorem alookup_self (fs : List (String × JVal)) (hnd : (fs.map Prod.fst).Nodup)
    (k : String) (v : JVal) (hm : (k, v) ∈ fs) : alookup k fs = some v := by
  induction fs with
  | nil => cases hm
  | cons kv tl ih =>
    obtain ⟨k', v'⟩ := kv
    simp only [List.map_cons, List.nodup_cons] at hnd
    rcases List.mem_cons.mp hm with h | h
    · injection h with h₁ h₂
      subst h₁
      subst h₂
      simp [alookup]
    · have hne : k' ≠ k := by
        intro he
        subst he
        exact hnd.1 (List.mem_map.mpr ⟨(k', v), h, rfl⟩)
      simp [alookup, hne, ih hnd.2 h]

/-- Inserting a fresh key appends it. -/
theorem insertReplace_of_none (k : String) (v : JVal) (acc : List (String × JVal))
    (h : alookup k acc = none) : insertReplace k v acc = acc ++ [(k, v)] := by
  induction acc with
  | nil => rfl
  | cons kv tl ih =>
    obtain ⟨k', v'⟩ := kv
    by_cases he : k' = k
    · simp [alookup, he] at h
    · simp only [alookup, if_neg he] at h
      simp [insertReplace, he, ih h]

/-- The change set the claim describes, restricted to the old
snapshot's fields: for each field of the old metadata, in order, the
field with its `before`/`after` pair whenever its value differs (by
Python `==`) from the new snapshot's value at that field, a missing
field reading as `None`. -/
def claimedDiff (fs gs : List (String × JVal)) : List (String × JVal) :=
  fs.filterMap (fun kv =>
    let nv := (alookup kv.1 gs).getD .jnull
    if pyEq kv.2 nv then none
    else some (kv.1, .jobj [("before", kv.2), ("after", nv)]))

/-- The comparison loop computes `claimedDiff`, appended to the
accumulated changes, for duplicate-free old keys not already present
in the accumulator. -/
theorem cmpLoop_spec (gs : List (String × JVal)) :
    ∀ (fs acc : List (String × JVal)),
      (∀ k, k ∈ fs.map Prod.fst → alookup k acc = none) →
      (fs.map Prod.fst).Nodup →
      cmpLoop (.jobj gs) acc fs = .ok (acc ++ claimedDiff fs gs) := by
  intro fs
  induction fs with
  | nil =>
    intro acc _ _
    simp [cmpLoop, claimedDiff, Pure.pure, Except.pure]
  | cons kv tl ih =>
    intro acc hacc hnd
    obtain ⟨k, v⟩ := kv
    simp only [List.map_cons, List.nodup_cons] at hnd
    have hps : pyGet (.jobj gs) k .jnull = .ok ((alookup k gs).getD .jnull) := rfl
    simp only [cmpLoop, hps, Bind.bind, Except.bind]
    by_cases hpe : pyEq v ((alookup k gs).getD .jnull) = true
    · rw [if_pos hpe]
      rw [ih acc (fun k' hk' => hacc k' (List.mem_cons_of_mem _ hk')) hnd.2]
      simp [claimedDiff, hpe]
    · rw [if_neg hpe]
      have hfresh : alookup k acc = none := hacc k (List.mem_cons_self _ _)
      rw [insertReplace_of_none _ _ _ hfresh]
      have hacc' : ∀ k', k' ∈ tl.map Prod.fst →
          alookup k' (acc ++ [(k, .jobj [("before", v),
            ("after", (alookup k gs).getD .jnull)])]) = none := by
        intro k' hk'
        have hne : k' ≠ k := fun he => hnd.1 (he ▸ hk')
        rw [alookup_append, hacc k' (List.mem_cons_of_mem _ hk')]
        simp [alookup, Ne.symm hne]
      rw [ih _ hacc' hnd.2]
      simp [claimedDiff, hpe, List.append_assoc]

/-- A six-field metadata snapshot with permission `-rw-r--r--`. -/
def permSnapOld : JVal :=
  .jobj [("metadata", .jobj
    [("size", .jnum 100), ("permissions", .jstr "-rw-r--r--"), ("owner", .jstr "root"),
     ("group", .jstr "root"), ("last_modified", .jstr "2026-01-01T00:00:00"),
     ("checksum", .jstr "abc")])]

/-- The same snapshot after a permission change to `-rw-rw-r--`. -/
def permSnapNew : JVal :=
  .jobj [("metadata", .jobj
    [("size", .jnum 100), ("permissions", .jstr "-rw-rw-r--"), ("owner", .jstr "root"),
     ("group", .jstr "root"), ("last_modified", .jstr "2026-01-01T00:00:00"),
     ("checksum", .jstr "abc")])]

/-- C4 counterexample: the two snapshots differ at the field `size`
(absent from the old metadata, `1` in the new), yet `compare_metadata`
returns an empty change set — the loop iterates only over the old
snapshot's keys, so the result is not "exactly the fields whose values
differ". -/
theorem C4_counterexample_new_only_field :
    compare_metadata (.jobj [("metadata", .jobj [])])
        (.jobj [("metadata", .jobj [("size", .jnum 1)])]) = .ok [] ∧
    totGet (totGet (.jobj [("metadata", .jobj [("size", .jnum 1)])]) ("metadata") (.jobj []))
        ("size") .jnull = .jnum 1 ∧
    totGet (totGet (.jobj [("metadata", (.jobj [] : JVal))]) ("metadata") (.jobj []))
        ("size") .jnull = .jnull :=
  ⟨rfl, rfl, rfl⟩

/-- C4 (amended): `compare_metadata` compares only the `metadata`
sub-objects and returns exactly the fields **of the old snapshot**
whose values differ from the new snapshot's value at that field
(missing read as `None`), each mapped to its `before`/`after` pair;
fields present only in the new snapshot are not reported.  Identical
snapshots yield an empty change set, and snapshots over the same
field set differing in exactly one field yield exactly that one entry
with `before`/`after` equal to the two stored values. -/
theorem C4_compare_metadata_old_fields :
    (∀ fs gs : List (String × JVal), (fs.map Prod.fst).Nodup →
       compare_metadata (.jobj [("metadata", .jobj fs)]) (.jobj [("metadata", .jobj gs)]) =
         .ok (claimedDiff fs gs)) ∧
    (∀ (fs gs : List (String × JVal)) (k : String) (c : JVal),
       (k, c) ∈ claimedDiff fs gs ↔
         ∃ v, (k, v) ∈ fs ∧ ¬ pyEq v ((alookup k gs).getD .jnull) = true ∧
           c = .jobj [("before", v), ("after", (alookup k gs).getD .jnull)]) ∧
    (∀ fs : List (String × JVal), (fs.map Prod.fst).Nodup →
       (∀ kv ∈ fs, pyEq kv.2 kv.2 = true) →
       compare_metadata (.jobj [("metadata", .jobj fs)])
         (.jobj [("metadata", .jobj fs)]) = .ok []) ∧
    (∀ (pre post : List (String × JVal)) (k : String) (v w : JVal),
       (((pre ++ (k, v) :: post).map Prod.fst)).Nodup →
       (∀ kv ∈ pre ++ post, pyEq kv.2 kv.2 = true) →
       ¬ pyEq v w = true →
       compare_metadata (.jobj [("metadata", .jobj (pre ++ (k, v) :: post))])
           (.jobj [("metadata", .jobj (pre ++ (k, w) :: post))]) =
         .ok [(k, .jobj [("before", v), ("after", w)])]) ∧
    compare_metadata permSnapOld permSnapNew =
      .ok [("permissions", .jobj [("before", .jstr "-rw-r--r--"),
                                  ("after", .jstr "-rw-rw-r--")])] ∧
    compare_metadata permSnapOld permSnapOld = .ok [] := by
  have hmain : ∀ fs gs : List (String × JVal), (fs.map Prod.fst).Nodup →
      compare_metadata (.jobj [("metadata", .jobj fs)]) (.jobj [("metadata", .jobj gs)]) =
        .ok (claimedDiff fs gs) := by
    intro fs gs hnd
    have h₁ : pyGet (.jobj [("metadata", .jobj fs)]) ("metadata") (.jobj []) =
        .ok (.jobj fs) := rfl
    have h₂ : pyGet (.jobj [("metadata", .jobj gs)]) ("metadata") (.jobj []) =
        .ok (.jobj gs) := rfl
    simp only [compare_metadata, h₁, h₂, Bind.bind, Except.bind]
    simpa using cmpLoop_spec gs fs [] (fun _ _ => rfl) hnd
  refine ⟨hmain, ?_, ?_, ?_, by rfl, by rfl⟩
  · intro fs gs k c
    simp only [claimedDiff, List.mem_filterMap]
    constructor
    · rintro ⟨⟨k', v⟩, hmem, hf⟩
      simp only at hf
      by_cases hpe : pyEq v ((alookup k' gs).getD .jnull) = true
      · rw [if_pos hpe] at hf; cases hf
      · rw [if_neg hpe] at hf
        injection hf with hf
        injection hf with hk hc
        subst hk
        exact ⟨v, hmem, hpe, hc.symm⟩
    · rintro ⟨v, hmem, hpe, rfl⟩
      exact ⟨(k, v), hmem, by simp [hpe]⟩
  · intro fs hnd hrefl
    rw [hmain fs fs hnd]
    have : claimedDiff fs fs = [] := by
      apply List.filterMap_eq_nil.mpr
      intro kv hkv
      simp only
      rw [alookup_self fs hnd kv.1 kv.2 hkv]
      simp [hrefl kv hkv]
    rw [this]
  · intro pre post k v w hnd hrefl hvw
    rw [hmain _ _ hnd]
    simp only [List.map_append, List.map_cons] at hnd
    have hndpre : (pre.map Prod.fst).Nodup := (List.nodup_append.mp hnd).1
    have hndrest : (k :: post.map Prod.fst).Nodup := (List.nodup_append.mp hnd).2.1
    have hdisj := (List.nodup_append.mp hnd).2.2
    have hknotpre : k ∉ pre.map Prod.fst := by
      intro hk
      exact hdisj hk (List.mem_cons_self _ _)
    have hndpost : (post.map Prod.fst).Nodup := (List.nodup_cons.mp hndrest).2
    have hknotpost : k ∉ post.map Prod.fst := (List.nodup_cons.mp hndrest).1
    have harr : claimedDiff (pre ++ (k, v) :: post) (pre ++ (k, w) :: post) =
        claimedDiff pre (pre ++ (k, w) :: post) ++
        claimedDiff ((k, v) :: post) (pre ++ (k, w) :: post) := by
      simp [claimedDiff]
    rw [harr]
    have hpre : claimedDiff pre (pre ++ (k, w) :: post) = [] := by
      apply List.filterMap_eq_nil.mpr
      intro kv hkv
      simp only
      rw [alookup_append, alookup_self pre hndpre kv.1 kv.2 hkv]
      simp [hrefl kv (List.mem_append_left _ hkv)]
    have hk : alookup k (pre ++ (k, w) :: post) = some w := by
      rw [alookup_append, alookup_eq_none k pre hknotpre]
      simp [alookup]
    have hpost : claimedDiff post (pre ++ (k, w) :: post) = [] := by
      apply List.filterMap_eq_nil.mpr
      intro kv hkv
      simp only
      have hkvnotpre : kv.1 ∉ pre.map Prod.fst := by
        intro hmem
        exact hdisj hmem (List.mem_cons_of_mem _ (List.mem_map.mpr ⟨kv, hkv, rfl⟩))
      have hkvnek : kv.1 ≠ k := by
        intro he
        exact hknotpost (he ▸ List.mem_map.mpr ⟨kv, hkv, rfl⟩)
      rw [alookup_append, alookup_eq_none kv.1 pre hkvnotpre]
      simp only [Option.elim]
      rw [show alookup kv.1 ((k, w) :: post) = alookup kv.1 post by
        simp [alookup, Ne.symm hkvnek]]
      rw [alookup_self post hndpost kv.1 kv.2 hkv]
      simp [hrefl kv (List.mem_append_right _ hkv)]
    rw [hpre, List.nil_append]
    have hcons : claimedDiff ((k, v) :: post) (pre ++ (k, w) :: post) =
        (k, .jobj [("before", v), ("after", w)]) :: claimedDiff post (pre ++ (k, w) :: post) := by
      simp [claimedDiff, hk, hvw]
    rw [hcons, hpost]

/-- C4 witness: the amended characterization applied to two concrete
one-field snapshots. -/
theorem C4_witness :
    compare_metadata (.jobj [("metadata", .jobj [("size", .jnum 5)])])
        (.jobj [("metadata", .jobj [("size", .jnum 7)])]) =
      .ok (claimedDiff [("size", .jnum 5)] [("size", .jnum 7)]) :=
  C4_compare_metadata_old_fields.1 [("size", .jnum 5)] [("size", .jnum 7)] (by decide)

-- ===========================================================================
-- C2: corrupt-line handling
-- ===========================================================================

/-- `remove_monitored_file_info`'s loop carries every non-blank
unparseable line through (as its stripped text). -/
theorem removeLoop_preserves_corrupt (target : String) :
    ∀ (ls lines : List String) (removed : Bool),
      removeLoop target ls = .ok (lines, removed) →
      ∀ piece ∈ ls, pyStrip piece ≠ "" → jsonParse (pyStrip piece) = none →
      pyStrip piece ∈ lines := by
  intro ls
  induction ls with
  | nil =>
    intro lines removed h piece hp
    cases hp
  | cons p tl ih =>
    intro lines removed h piece hmem hne hparse
    simp only [removeLoop] at h
    rcases List.mem_cons.mp hmem with rfl | hmem'
    · rw [if_neg hne] at h
      simp only [hparse] at h
      cases hrec : removeLoop target tl with
      | error e => simp only [hrec] at h; simp [Bind.bind, Except.bind] at h
      | ok pr =>
        obtain ⟨ls', r'⟩ := pr
        simp only [hrec] at h
        simp only [Bind.bind, Except.bind, Pure.pure, Except.pure, Except.ok.injEq,
          Prod.mk.injEq] at h
        rw [← h.1]
        exact List.mem_cons_self _ _
    · by_cases hb : pyStrip p = ""
      · rw [if_pos hb] at h
        exact ih lines removed h piece hmem' hne hparse
      · rw [if_neg hb] at h
        cases hp : jsonParse (pyStrip p) with
        | none =>
          simp only [hp] at h
          cases hrec : removeLoop target tl with
          | error e => simp only [hrec] at h; simp [Bind.bind, Except.bind] at h
          | ok pr =>
            obtain ⟨ls', r'⟩ := pr
            simp only [hrec] at h
            simp only [Bind.bind, Except.bind, Pure.pure, Except.pure, Except.ok.injEq,
              Prod.mk.injEq] at h
            rw [← h.1]
            exact List.mem_cons_of_mem _ (ih ls' r' hrec piece hmem' hne hparse)
        | some d =>
          simp only [hp] at h
          simp only [Bind.bind, Except.bind] at h
          cases hfo : pyGet d ("file") (.jobj []) with
          | error e => simp only [hfo] at h; simp at h
          | ok fo =>
            simp only [hfo] at h
            cases hpv : pyGet fo ("path") .jnull with
            | error e => simp only [hpv] at h; simp at h
            | ok pv =>
              simp only [hpv] at h
              by_cases heq : pyEq pv (.jstr target) = true
              · rw [if_pos heq] at h
                cases hrec : removeLoop target tl with
                | error e => simp only [hrec] at h; simp at h
                | ok pr =>
                  obtain ⟨ls', r'⟩ := pr
                  simp only [hrec] at h
                  simp only [Pure.pure, Except.pure, Except.ok.injEq, Prod.mk.injEq] at h
                  rw [← h.1]
                  exact ih ls' r' hrec piece hmem' hne hparse
              · rw [if_neg heq] at h
                cases hrec : removeLoop target tl with
                | error e => simp only [hrec] at h; simp at h
                | ok pr =>
                  obtain ⟨ls', r'⟩ := pr
                  simp only [hrec] at h
                  simp only [Pure.pure, Except.pure, Except.ok.injEq, Prod.mk.injEq] at h
                  rw [← h.1]
                  exact List.mem_cons_of_mem _ (ih ls' r' hrec piece hmem' hne hparse)

/-- `load_files_monitored`'s scan skips a line that fails to parse:
deleting it from the input leaves the result (and any raised
exception) unchanged. -/
theorem loadMonLoop_skips_corrupt (piece : String)
    (hparse : jsonParse (pyStrip piece) = none) :
    ∀ (pre post : List String) (acc : List (JVal × JVal)),
      loadMonLoop acc (pre ++ piece :: post) = loadMonLoop acc (pre ++ post) := by
  intro pre
  induction pre with
  | nil =>
    intro post acc
    simp only [List.nil_append, loadMonLoop]
    by_cases hb : pyStrip piece = ""
    · rw [if_pos hb]
    · rw [if_neg hb, hparse]
  | cons q tl ih =>
    intro post acc
    simp only [List.cons_append, loadMonLoop]
    by_cases hb : pyStrip q = ""
    · rw [if_pos hb, if_pos hb]
      exact ih post acc
    · rw [if_neg hb, if_neg hb]
      cases hq : jsonParse (pyStrip q) with
      | none => exact ih post acc
      | some d =>
        simp only [Bind.bind, Except.bind]
        cases hfo : pyGet d ("file") (.jobj []) with
        | error e => rfl
        | ok fo =>
          dsimp only
          cases hpv : pyGet fo ("path") .jnull with
          | error e => rfl
          | ok pv =>
            dsimp only
            cases hcfg : pyGet d ("monitoring") (.jobj []) with
            | error e => rfl
            | ok cfg =>
              dsimp only
              by_cases htr : pyTruthy pv = true ∧ pyTruthy cfg = true
              · rw [if_pos htr, if_pos htr]
                by_cases hh : pyHashable pv = true
                · rw [if_pos hh, if_pos hh]
                  exact ih post _
                · rw [if_neg hh, if_neg hh]
              · rw [if_neg htr, if_neg htr]
                exact ih post acc

/-- `set_conf`'s loop carries every non-blank unparseable line
through (as its stripped text). -/
theorem setConfLoop_preserves_corrupt (target cType : String) (ne na : JVal) :
    ∀ (ls lines : List String) (u : Bool),
      setConfLoop target cType ne na ls = .ok (lines, u) →
      ∀ piece ∈ ls, pyStrip piece ≠ "" → jsonParse (pyStrip piece) = none →
      pyStrip piece ∈ lines := by
  intro ls
  induction ls with
  | nil =>
    intro lines u h piece hp
    cases hp
  | cons p tl ih =>
    intro lines u h piece hmem hne hparse
    simp only [setConfLoop] at h
    rcases List.mem_cons.mp hmem with rfl | hmem'
    · rw [if_neg hne] at h
      simp only [hparse] at h
      cases hrec : setConfLoop target cType ne na tl with
      | error e => simp only [hrec] at h; simp [Bind.bind, Except.bind] at h
      | ok pr =>
        obtain ⟨ls', u'⟩ := pr
        simp only [hrec] at h
        simp only [Bind.bind, Except.bind, Pure.pure, Except.pure, Except.ok.injEq,
          Prod.mk.injEq] at h
        rw [← h.1]
        exact List.mem_cons_self _ _
    · by_cases hb : pyStrip p = ""
      · rw [if_pos hb] at h
        exact ih lines u h piece hmem' hne hparse
      · rw [if_neg hb] at h
        cases hp : jsonParse (pyStrip p) with
        | none =>
          simp only [hp] at h
          cases hrec : setConfLoop target cType ne na tl with
          | error e => simp only [hrec] at h; simp [Bind.bind, Except.bind] at h
          | ok pr =>
            obtain ⟨ls', u'⟩ := pr
            simp only [hrec] at h
            simp only [Bind.bind, Except.bind, Pure.pure, Except.pure, Except.ok.injEq,
              Prod.mk.injEq] at h
            rw [← h.1]
            exact List.mem_cons_of_mem _ (ih ls' u' hrec piece hmem' hne hparse)
        | some d =>
          simp only [hp, Bind.bind, Except.bind] at h
          cases hfo : pyGet d ("file") (.jobj []) with
          | error e => simp only [hfo] at h; simp at h
          | ok fo =>
            simp only [hfo] at h
            cases hpv : pyGet fo ("path") .jnull with
            | error e => simp only [hpv] at h; simp at h
            | ok pv =>
              simp only [hpv] at h
              by_cases heq : pyEq pv (.jstr target) = true
              · rw [if_pos heq] at h
                cases hmon : pyGet d ("monitoring") (.jobj []) with
                | error e => simp only [hmon] at h; simp at h
                | ok mon =>
                  simp only [hmon] at h
                  cases hstep : setConfStep cType ne na mon with
                  | error e => simp only [hstep] at h; simp at h
                  | ok prs =>
                    obtain ⟨mon', upd⟩ := prs
                    simp only [hstep] at h
                    cases hd' : pySetKey d ("monitoring") mon' with
                    | error e => simp only [hd'] at h; simp at h
                    | ok d' =>
                      simp only [hd'] at h
                      cases hrec : setConfLoop target cType ne na tl with
                      | error e => simp only [hrec] at h; simp at h
                      | ok pr =>
                        obtain ⟨ls', u'⟩ := pr
                        simp only [hrec] at h
                        simp only [Pure.pure, Except.pure, Except.ok.injEq,
                          Prod.mk.injEq] at h
                        rw [← h.1]
                        exact List.mem_cons_of_mem _
                          (ih ls' u' hrec piece hmem' hne hparse)
              · rw [if_neg heq] at h
                cases hrec : setConfLoop target cType ne na tl with
                | error e => simp only [hrec] at h; simp at h
                | ok pr =>
                  obtain ⟨ls', u'⟩ := pr
                  simp only [hrec] at h
                  simp only [Pure.pure, Except.pure, Except.ok.injEq, Prod.mk.injEq] at h
                  rw [← h.1]
                  exact List.mem_cons_of_mem _ (ih ls' u' hrec piece hmem' hne hparse)

/-- `update_files_state`'s loop carries every non-blank unparseable
line through (as its stripped text), whatever the event kind. -/
theorem updateLoop_preserves_corrupt (fs : String → Bool) (li : String → Option JVal)
    (ev src : String) (dest : Option String) :
    ∀ (ls lines : List String),
      updateLoop fs li ev src dest ls = .ok lines →
      ∀ piece ∈ ls, pyStrip piece ≠ "" → jsonParse (pyStrip piece) = none →
      pyStrip piece ∈ lines := by
  intro ls
  induction ls with
  | nil =>
    intro lines h piece hp
    cases hp
  | cons p tl ih =>
    intro lines h piece hmem hne hparse
    simp only [updateLoop] at h
    rcases List.mem_cons.mp hmem with rfl | hmem'
    · rw [if_neg hne] at h
      simp only [hparse] at h
      cases hrec : updateLoop fs li ev src dest tl with
      | error e => simp only [hrec] at h; simp [Bind.bind, Except.bind] at h
      | ok ls' =>
        simp only [hrec] at h
        simp only [Bind.bind, Except.bind, Pure.pure, Except.pure, Except.ok.injEq] at h
        rw [← h]
        exact List.mem_cons_self _ _
    · by_cases hb : pyStrip p = ""
      · rw [if_pos hb] at h
        exact ih lines h piece hmem' hne hparse
      · rw [if_neg hb] at h
        cases hp : jsonParse (pyStrip p) with
        | none =>
          simp only [hp] at h
          cases hrec : updateLoop fs li ev src dest tl with
          | error e => simp only [hrec] at h; simp [Bind.bind, Except.bind] at h
          | ok ls' =>
            simp only [hrec] at h
            simp only [Bind.bind, Except.bind, Pure.pure, Except.pure, Except.ok.injEq] at h
            rw [← h]
            exact List.mem_cons_of_mem _ (ih ls' hrec piece hmem' hne hparse)
        | some d =>
          simp only [hp, Bind.bind, Except.bind] at h
          cases hfo : pyGet d ("file") (.jobj []) with
          | error e => simp only [hfo] at h; simp at h
          | ok fo =>
            simp only [hfo] at h
            cases hpv : pyGet fo ("path") .jnull with
            | error e => simp only [hpv] at h; simp at h
            | ok pv =>
              simp only [hpv] at h
              have htail : ∀ (x : List String → List String),
                  (∀ ls', x ls' = ls' ∨ ∃ y, x ls' = y :: ls') →
                  (match updateLoop fs li ev src dest tl with
                    | Except.error err => Except.error err
                    | Except.ok ls' => Except.ok (x ls')) = Except.ok lines →
                  pyStrip piece ∈ lines := by
                intro x hx hh
                cases hrec : updateLoop fs li ev src dest tl with
                | error e => simp only [hrec] at hh; cases hh
                | ok ls' =>
                  simp only [hrec, Except.ok.injEq] at hh
                  have hin := ih ls' hrec piece hmem' hne hparse
                  rcases hx ls' with hid | ⟨y, hy⟩
                  · rw [← hh, hid]; exact hin
                  · rw [← hh, hy]; exact List.mem_cons_of_mem _ hin
              by_cases hdel : ev = "delete" ∧ pyEq pv (.jstr src) = true
              · rw [if_pos hdel] at h
                cases hrec : updateLoop fs li ev src dest tl with
                | error e => simp only [hrec] at h; cases h
                | ok ls' =>
                  simp only [hrec, Except.ok.injEq] at h
                  rw [← h]
                  exact ih ls' hrec piece hmem' hne hparse
              · rw [if_neg hdel] at h
                by_cases hmov : ev = "move" ∧ pyEq pv (.jstr src) = true ∧ dest.isSome = true
                · rw [if_pos hmov] at h
                  cases dest with
                  | none =>
                    dsimp only at h
                    cases hrec : updateLoop fs li ev src none tl with
                    | error e => simp only [hrec] at h; cases h
                    | ok ls' =>
                      simp only [hrec, Except.ok.injEq] at h
                      rw [← h]
                      exact ih ls' hrec piece hmem' hne hparse
                  | some dst =>
                    dsimp only at h
                    by_cases hex : fs dst = true
                    · rw [if_pos hex] at h
                      cases hli : li dst with
                      | none =>
                        simp only [hli] at h
                        cases hrec : updateLoop fs li ev src (some dst) tl with
                        | error e => simp only [hrec] at h; cases h
                        | ok ls' =>
                          simp only [hrec, Except.ok.injEq] at h
                          rw [← h]
                          exact ih ls' hrec piece hmem' hne hparse
                      | some nd =>
                        simp only [hli] at h
                        cases hmon : pyGet d ("monitoring") (.jobj []) with
                        | error e => simp only [hmon] at h; simp at h
                        | ok mon =>
                          simp only [hmon] at h
                          cases hnd : pySetKey nd ("monitoring") mon with
                          | error e => simp only [hnd] at h; simp at h
                          | ok nd' =>
                            simp only [hnd] at h
                            cases hrec : updateLoop fs li ev src (some dst) tl with
                            | error e => simp only [hrec] at h; simp at h
                            | ok ls' =>
                              simp only [hrec] at h
                              simp only [Pure.pure, Except.pure, Except.ok.injEq] at h
                              rw [← h]
                              exact List.mem_cons_of_mem _
                                (ih ls' hrec piece hmem' hne hparse)
                    · rw [if_neg hex] at h
                      cases hrec : updateLoop fs li ev src (some dst) tl with
                      | error e => simp only [hrec] at h; cases h
                      | ok ls' =>
                        simp only [hrec, Except.ok.injEq] at h
                        rw [← h]
                        exact ih ls' hrec piece hmem' hne hparse
                · rw [if_neg hmov] at h
                  by_cases hma : (ev = "modify" ∨ ev = "add") ∧ pyEq pv (.jstr src) = true
                  · rw [if_pos hma] at h
                    by_cases hex : fs src = true
                    · rw [if_pos hex] at h
                      cases hli : li src with
                      | none =>
                        simp only [hli] at h
                        cases hrec : updateLoop fs li ev src dest tl with
                        | error e => simp only [hrec] at h; simp at h
                        | ok ls' =>
                          simp only [hrec] at h
                          simp only [Bind.bind, Except.bind, Pure.pure, Except.pure,
                            Except.ok.injEq] at h
                          rw [← h]
                          exact List.mem_cons_of_mem _ (ih ls' hrec piece hmem' hne hparse)
                      | some nd =>
                        simp only [hli] at h
                        cases hmon : pyGet d ("monitoring") (.jobj []) with
                        | error e => simp only [hmon] at h; simp at h
                        | ok mon =>
                          simp only [hmon] at h
                          cases hnd : pySetKey nd ("monitoring") mon with
                          | error e => simp only [hnd] at h; simp at h
                          | ok nd' =>
                            simp only [hnd] at h
                            cases hrec : updateLoop fs li ev src dest tl with
                            | error e => simp only [hrec] at h; simp at h
                            | ok ls' =>
                              simp only [hrec] at h
                              simp only [Pure.pure, Except.pure, Except.ok.injEq] at h
                              rw [← h]
                              exact List.mem_cons_of_mem _
                                (ih ls' hrec piece hmem' hne hparse)
                    · rw [if_neg hex] at h
                      cases hrec : updateLoop fs li ev src dest tl with
                      | error e => simp only [hrec] at h; simp at h
                      | ok ls' =>
                        simp only [hrec] at h
                        simp only [Bind.bind, Except.bind, Pure.pure, Except.pure,
                          Except.ok.injEq] at h
                        rw [← h]
                        exact List.mem_cons_of_mem _ (ih ls' hrec piece hmem' hne hparse)
                  · rw [if_neg hma] at h
                    cases hrec : updateLoop fs li ev src dest tl with
                    | error e => simp only [hrec] at h; simp at h
                    | ok ls' =>
                      simp only [hrec] at h
                      simp only [Bind.bind, Except.bind, Pure.pure, Except.pure,
                        Except.ok.injEq] at h
                      rw [← h]
                      exact List.mem_cons_of_mem _ (ih ls' hrec piece hmem' hne hparse)

/-- C2 counterexample: a whitespace-only store line fails to parse as
JSON (`json.loads("   ")` raises), yet a rewrite drops it entirely —
`line.strip()` empties it and the loop skips blank lines — so not
every unparseable line is carried through verbatim. -/
theorem C2_counterexample_whitespace_line_dropped :
    jsonParse ("   ") = none ∧
    (remove_monitored_file_info ("   \n") ("/x") true).store = "" ∧
    (remove_monitored_file_info ("   \n") ("/x") true).res = .ok false :=
  ⟨rfl, rfl, rfl⟩

/-- C2 (amended): every load skips a line that fails to parse without
failing (removing the line from the input leaves the loaded result,
including any raised error, unchanged), and every whole-file rewrite
(`remove_monitored_file_info`, `set_conf`, `update_files_state`)
carries every unparseable line that is non-blank after stripping
through into the rewritten lines as its stripped text; only
whitespace-only lines are dropped. -/
theorem C2_corrupt_lines_preserved :
    (∀ (store piece : String), piece ∈ splitLines store →
       pyStrip piece ≠ "" → jsonParse (pyStrip piece) = none →
       (∀ (target : String) (lines : List String) (removed : Bool),
          removeLoop target (splitLines store) = .ok (lines, removed) →
          pyStrip piece ∈ lines ∧
            (remove_monitored_file_info store target true).store = joinLines lines) ∧
       (∀ (target cType : String) (ne na : JVal) (lines : List String) (u : Bool),
          setConfLoop target cType ne na (splitLines store) = .ok (lines, u) →
          pyStrip piece ∈ lines) ∧
       (∀ (ev src : String) (dest : Option String) (fs : String → Bool)
          (li : String → Option JVal) (lines : List String),
          updateLoop fs li ev src dest (splitLines store) = .ok lines →
          pyStrip piece ∈ lines)) ∧
    (∀ (piece : String), jsonParse (pyStrip piece) = none →
       ∀ (pre post : List String) (acc : List (JVal × JVal)),
         loadMonLoop acc (pre ++ piece :: post) = loadMonLoop acc (pre ++ post)) := by
  constructor
  · intro store piece hmem hne hparse
    refine ⟨?_, ?_, ?_⟩
    · intro target lines removed h
      refine ⟨removeLoop_preserves_corrupt target _ lines removed h piece hmem hne hparse, ?_⟩
      simp [remove_monitored_file_info, h]
    · intro target cType ne na lines u h
      exact setConfLoop_preserves_corrupt target cType ne na _ lines u h piece hmem hne hparse
    · intro ev src dest fs li lines h
      exact updateLoop_preserves_corrupt fs li ev src dest _ lines h piece hmem hne hparse
  · intro piece hparse pre post acc
    exact loadMonLoop_skips_corrupt piece hparse pre post acc

/-- C2 witness: the corrupt line of the sample store survives the
`remove` rewrite as its stripped text, and the rewritten store is the
joined kept lines. -/
theorem C2_witness :
    pyStrip ("corrupt ") ∈ ["corrupt", sampleLineB] ∧
    (remove_monitored_file_info sampleStore ("/a") true).store =
      joinLines ["corrupt", sampleLineB] :=
  (C2_corrupt_lines_preserved.1 sampleStore ("corrupt ") (by decide) (by decide) (by rfl)).1
    ("/a") ["corrupt", sampleLineB] true (by rfl)

-- ===========================================================================
-- C9: vanished paths during a state refresh
-- ===========================================================================

/-- A successful `dict.get` agrees with the total observation. -/
theorem pyGet_totGet (v : JVal) (k : String) (dflt w : JVal)
    (h : pyGet v k dflt = .ok w) : totGet v k dflt = w := by
  cases v <;> simp [pyGet, Pure.pure, Except.pure] at h <;> simp [totGet, h]

/-- A failing `dict.get` (non-dict receiver) leaves the total
observation at its default. -/
theorem pyGet_error_totGet (v : JVal) (k : String) (dflt : JVal) (e : Unit)
    (h : pyGet v k dflt = .error e) : totGet v k dflt = dflt := by
  cases v <;> simp [pyGet, Pure.pure, Except.pure] at h <;> simp [totGet]

/-- `pyEq` never equates `null` with a string. -/
theorem pyEq_jnull_jstr (s : String) : pyEq .jnull (.jstr s) = false := rfl

/-- When a `modify` or `add` refresh finds the path gone from the
file system, the update loop degenerates to the pure pass-through
normalization: every record — in particular the one for the vanished
path — is re-serialized unchanged. -/
theorem updateLoop_vanished_eq_norm (fs : String → Bool) (li : String → Option JVal)
    (ev src : String) (dest : Option String)
    (hev : ev = "modify" ∨ ev = "add") (hfs : fs src = false) :
    ∀ ls, updateLoop fs li ev src dest ls = normLines ls := by
  intro ls
  induction ls with
  | nil => rfl
  | cons p tl ih =>
    simp only [updateLoop, normLines]
    by_cases hb : pyStrip p = ""
    · rw [if_pos hb, if_pos hb]
      exact ih
    · rw [if_neg hb, if_neg hb]
      cases hp : jsonParse (pyStrip p) with
      | none =>
        simp only [Bind.bind, Except.bind]
        rw [ih]
      | some d =>
        simp only [Bind.bind, Except.bind]
        cases hfo : pyGet d ("file") (.jobj []) with
        | error e => rfl
        | ok fo =>
          dsimp only
          cases hpv : pyGet fo ("path") .jnull with
          | error e => rfl
          | ok pv =>
            dsimp only
            have hnd : ¬(ev = "delete" ∧ pyEq pv (.jstr src) = true) := by
              rintro ⟨rfl, -⟩
              rcases hev with h | h <;> simp at h
            have hnm : ¬(ev = "move" ∧ pyEq pv (.jstr src) = true ∧ dest.isSome = true) := by
              rintro ⟨rfl, -⟩
              rcases hev with h | h <;> simp at h
            rw [if_neg hnd, if_neg hnm]
            by_cases hma : (ev = "modify" ∨ ev = "add") ∧ pyEq pv (.jstr src) = true
            · rw [if_pos hma, if_neg (by simp [hfs])]
              rw [ih]
            · rw [if_neg hma]
              rw [ih]

/-- The pass-through normalization keeps every parseable line as the
`json.dumps` of its parsed record (when it completes). -/
theorem normLines_preserves_records :
    ∀ (ls out : List String), normLines ls = .ok out →
      ∀ (piece : String) (d : JVal), piece ∈ ls → jsonParse (pyStrip piece) = some d →
      dumps d ∈ out := by
  intro ls
  induction ls with
  | nil =>
    intro out h piece d hmem
    cases hmem
  | cons p tl ih =>
    intro out h piece d hmem hparse
    simp only [normLines] at h
    rcases List.mem_cons.mp hmem with rfl | hmem'
    · have hne : pyStrip piece ≠ "" := by
        intro he
        rw [he] at hparse
        cases hparse
      rw [if_neg hne] at h
      simp only [hparse, Bind.bind, Except.bind] at h
      cases hfo : pyGet d ("file") (.jobj []) with
      | error e => simp only [hfo] at h; cases h
      | ok fo =>
        simp only [hfo] at h
        cases hpv : pyGet fo ("path") .jnull with
        | error e => simp only [hpv] at h; cases h
        | ok pv =>
          simp only [hpv] at h
          cases hrec : normLines tl with
          | error e => simp only [hrec] at h; cases h
          | ok ls' =>
            simp only [hrec, Pure.pure, Except.pure, Except.ok.injEq] at h
            rw [← h]
            exact List.mem_cons_self _ _
    · by_cases hb : pyStrip p = ""
      · rw [if_pos hb] at h
        exact ih out h piece d hmem' hparse
      · rw [if_neg hb] at h
        cases hpp : jsonParse (pyStrip p) with
        | none =>
          simp only [hpp, Bind.bind, Except.bind] at h
          cases hrec : normLines tl with
          | error e => simp only [hrec] at h; cases h
          | ok ls' =>
            simp only [hrec, Pure.pure, Except.pure, Except.ok.injEq] at h
            rw [← h]
            exact List.mem_cons_of_mem _ (ih ls' hrec piece d hmem' hparse)
        | some d' =>
          simp only [hpp, Bind.bind, Except.bind] at h
          cases hfo : pyGet d' ("file") (.jobj []) with
          | error e => simp only [hfo] at h; cases h
          | ok fo =>
            simp only [hfo] at h
            cases hpv : pyGet fo ("path") .jnull with
            | error e => simp only [hpv] at h; cases h
            | ok pv =>
              simp only [hpv] at h
              cases hrec : normLines tl with
              | error e => simp only [hrec] at h; cases h
              | ok ls' =>
                simp only [hrec, Pure.pure, Except.pure, Except.ok.injEq] at h
                rw [← h]
                exact List.mem_cons_of_mem _ (ih ls' hrec piece d hmem' hparse)

/-- A `delete` refresh equals the pass-through normalization of the
store with every record for the source path removed. -/
theorem updateLoop_delete_eq_norm_filter (fs : String → Bool) (li : String → Option JVal)
    (src : String) (dest : Option String) :
    ∀ ls, updateLoop fs li ("delete") src dest ls =
      normLines (ls.filter (fun p => !pieceIsSrcRecord src p)) := by
  intro ls
  induction ls with
  | nil => rfl
  | cons p tl ih =>
    by_cases hb : pyStrip p = ""
    · have hsr : pieceIsSrcRecord src p = false := by
        have : jsonParse (pyStrip p) = none := by rw [hb]; rfl
        simp [pieceIsSrcRecord, this]
      rw [List.filter_cons, if_pos (by simp [hsr])]
      simp only [updateLoop, normLines, if_pos hb]
      exact ih
    · cases hp : jsonParse (pyStrip p) with
      | none =>
        have hsr : pieceIsSrcRecord src p = false := by
          simp [pieceIsSrcRecord, hp]
        rw [List.filter_cons, if_pos (by simp [hsr])]
        simp only [updateLoop, normLines, if_neg hb, hp, Bind.bind, Except.bind]
        rw [ih]
      | some d =>
        cases hfo : pyGet d ("file") (.jobj []) with
        | error e =>
          have hsr : pieceIsSrcRecord src p = false := by
            simp only [pieceIsSrcRecord, hp, pyGet_error_totGet d ("file") (.jobj []) e hfo]
            rfl
          rw [List.filter_cons, if_pos (by simp [hsr])]
          simp only [updateLoop, normLines, if_neg hb, hp, Bind.bind, Except.bind, hfo]
        | ok fo =>
          cases hpv : pyGet fo ("path") .jnull with
          | error e =>
            have hsr : pieceIsSrcRecord src p = false := by
              simp only [pieceIsSrcRecord, hp, pyGet_totGet d ("file") (.jobj []) fo hfo,
                pyGet_error_totGet fo ("path") .jnull e hpv]
              rfl
            rw [List.filter_cons, if_pos (by simp [hsr])]
            simp only [updateLoop, normLines, if_neg hb, hp, Bind.bind, Except.bind, hfo, hpv]
          | ok pv =>
            have hsr : pieceIsSrcRecord src p = pyEq pv (.jstr src) := by
              simp only [pieceIsSrcRecord, hp, pyGet_totGet d ("file") (.jobj []) fo hfo,
                pyGet_totGet fo ("path") .jnull pv hpv]
            by_cases heq : pyEq pv (.jstr src) = true
            · rw [List.filter_cons, if_neg (by simp [hsr, heq])]
              simp only [updateLoop, if_neg hb, hp, Bind.bind, Except.bind, hfo, hpv]
              rw [if_pos (by simp [heq])]
              exact ih
            · rw [List.filter_cons, if_pos (by simp [hsr, heq])]
              simp only [updateLoop, normLines, if_neg hb, hp, Bind.bind, Except.bind, hfo, hpv]
              rw [if_neg (by simp [heq]), if_neg (by simp), if_neg (by simp)]
              rw [ih]

/-- C9: when the monitored path no longer exists at the moment
`update_files_state` refreshes the store after a `modify` or `add`
event, the refresh loop is exactly the pass-through normalization, so
the prior record for the path is re-serialized unchanged (last-known
baseline kept); only a `delete` event removes the record — its
refresh equals the normalization of the store with the source
records filtered out. -/
theorem C9_vanished_path_keeps_baseline :
    (∀ (fs : String → Bool) (li : String → Option JVal) (ev src : String)
       (dest : Option String) (ls : List String),
       (ev = "modify" ∨ ev = "add") → fs src = false →
       updateLoop fs li ev src dest ls = normLines ls) ∧
    (∀ (ls out : List String), normLines ls = .ok out →
       ∀ (piece : String) (d : JVal), piece ∈ ls → jsonParse (pyStrip piece) = some d →
       dumps d ∈ out) ∧
    (∀ (fs : String → Bool) (li : String → Option JVal) (src : String)
       (dest : Option String) (ls : List String),
       updateLoop fs li ("delete") src dest ls =
         normLines (ls.filter (fun p => !pieceIsSrcRecord src p))) :=
  ⟨fun fs li ev src dest ls hev hfs => updateLoop_vanished_eq_norm fs li ev src dest hev hfs ls,
   normLines_preserves_records,
   fun fs li src dest ls => updateLoop_delete_eq_norm_filter fs li src dest ls⟩

/-- C9 witness: with the path gone from the file system, a `modify`
refresh of the sample store equals the pass-through normalization, so
the `/a` record survives verbatim; the theorem's hypotheses are
discharged at this concrete input. -/
theorem C9_witness :
    updateLoop (fun _ => false) (fun _ => none) ("modify") ("/a") none
        (splitLines sampleStore) = normLines (splitLines sampleStore) ∧
    normLines (splitLines sampleStore) = .ok [sampleLineA, "corrupt", sampleLineB] :=
  ⟨C9_vanished_path_keeps_baseline.1 (fun _ => false) (fun _ => none) ("modify") ("/a") none
      (splitLines sampleStore) (Or.inl rfl) rfl,
   by rfl⟩

end Vigilo
